import Mathlib

/-!
Verification of the `sas_test_generator` repository against its design
specification.

The Python sources are shallowly embedded: text is represented as `List Char`
(`String.data`), Python `float` thresholds as `ℚ`, Python `set` as
`Finset String`, Python `dict` as an insertion-ordered association list,
and `pandas.DataFrame` as a column-name list plus aligned rows.  Each
definition mirrors one Python function of the repository and is named after
it; deviations forced by the model (for example, the iteration order of a
Python `set`) are recorded in the doc comment of the definition concerned.
-/

namespace SasGen

/-- ASCII lower-casing of a string, modelling Python's `str.lower()` on the
operator tokens handled here (all ASCII).  Lean's own `String.toLower` is
defined by well-founded recursion and does not reduce in the kernel, so the
character-list map is used instead. -/
def strToLower (s : String) : String := String.mk (s.data.map Char.toLower)

/-! ## Value-targeting helpers (`dataset_generator._value_to_satisfy` / `_value_to_violate`) -/

/-- Embedding of `dataset_generator._value_to_satisfy`: return a value that
satisfies `value <operator> threshold`.  Thresholds (Python floats) are
modelled as rationals. -/
def value_to_satisfy (operator : String) (threshold : ℚ) : ℚ :=
  let op := strToLower operator
  if op ∈ [">", "gt"] then threshold + 1
  else if op ∈ [">=", "ge"] then threshold
  else if op ∈ ["<", "lt"] then threshold - 1
  else if op ∈ ["<=", "le"] then threshold
  else if op ∈ ["=", "eq"] then threshold
  else if op ∈ ["ne"] then threshold + 1
  else threshold

/-- Embedding of `dataset_generator._value_to_violate`: return a value that
violates `value <operator> threshold`. -/
def value_to_violate (operator : String) (threshold : ℚ) : ℚ :=
  let op := strToLower operator
  if op ∈ [">", "gt"] then threshold - 1
  else if op ∈ [">=", "ge"] then threshold - 1
  else if op ∈ ["<", "lt"] then threshold + 1
  else if op ∈ ["<=", "le"] then threshold + 1
  else if op ∈ ["=", "eq"] then threshold + 1
  else if op ∈ ["ne"] then threshold
  else threshold + 1

/-- Semantics of a SAS relational comparison `v OP k` for the six relational
operators and their textual aliases (the comparison the generated value is
meant to satisfy or violate). -/
def evalCmp (operator : String) (v k : ℚ) : Bool :=
  let op := strToLower operator
  if op ∈ [">", "gt"] then decide (v > k)
  else if op ∈ [">=", "ge"] then decide (v ≥ k)
  else if op ∈ ["<", "lt"] then decide (v < k)
  else if op ∈ ["<=", "le"] then decide (v ≤ k)
  else if op ∈ ["=", "eq"] then decide (v = k)
  else if op ∈ ["ne"] then decide (v ≠ k)
  else false

/-- The eleven operator spellings accepted by the two helpers. -/
def relationalOps : List String :=
  [">", "gt", ">=", "ge", "<", "lt", "<=", "le", "=", "eq", "ne"]

/-! ## Data model (`sas_parser.CoveragePointType`, `CoveragePoint`, `coverage.CoverageReport`) -/

/-- Embedding of the `CoveragePointType` enum of `sas_parser.py`. -/
inductive CoveragePointType where
  | STEP_ENTRY
  | IF_TRUE
  | IF_FALSE
  | SELECT_WHEN
  | SELECT_OTHERWISE
  | SQL_WHERE
  | SQL_CASE_WHEN
  | SQL_CASE_ELSE
deriving DecidableEq, Repr

/-- The `.name` of an enum member, as used by `CoverageReport.to_dict`. -/
def CoveragePointType.name : CoveragePointType → String
  | .STEP_ENTRY => "STEP_ENTRY"
  | .IF_TRUE => "IF_TRUE"
  | .IF_FALSE => "IF_FALSE"
  | .SELECT_WHEN => "SELECT_WHEN"
  | .SELECT_OTHERWISE => "SELECT_OTHERWISE"
  | .SQL_WHERE => "SQL_WHERE"
  | .SQL_CASE_WHEN => "SQL_CASE_WHEN"
  | .SQL_CASE_ELSE => "SQL_CASE_ELSE"

/-- Embedding of the `CoveragePoint` dataclass of `sas_parser.py`. -/
structure CoveragePoint where
  point_id : String
  point_type : CoveragePointType
  line_number : Nat
  description : String
  condition : String := ""
deriving DecidableEq, Repr

/-- Python `k in d` on the association-list model of `dict`. -/
def hasKey : List (String × CoveragePoint) → String → Bool
  | [], _ => false
  | p :: ps, k => p.1 == k || hasKey ps k

/-- Python `d[k]` on the association-list model of `dict` (first entry with
the key; built dictionaries never repeat a key). -/
def alistLookup : List (String × CoveragePoint) → String → Option CoveragePoint
  | [], _ => none
  | p :: ps, k => if p.1 = k then some p.2 else alistLookup ps k

/-- Python `d[k] = v` modelled on an association list: an existing key keeps
its position and gets the new value; a new key is appended. -/
def alistInsert (d : List (String × CoveragePoint)) (k : String) (v : CoveragePoint) :
    List (String × CoveragePoint) :=
  if hasKey d k then d.map (fun p => if p.1 = k then (k, v) else p)
  else d ++ [(k, v)]

/-- The dict comprehension `{cp.point_id: cp for cp in expected_points}`. -/
def alistOfPoints (cps : List CoveragePoint) : List (String × CoveragePoint) :=
  cps.foldl (fun d cp => alistInsert d cp.point_id cp) []

/-- Python `d.update(e)`: fold the entries of `e` into `d` in order. -/
def dictUpdate (d e : List (String × CoveragePoint)) : List (String × CoveragePoint) :=
  e.foldl (fun acc p => alistInsert acc p.1 p.2) d

/-- Embedding of the `CoverageReport` dataclass of `coverage.py`.  Python
`set[str]` is modelled as `Finset String`, and the `points_detail` dict as
an insertion-ordered association list. -/
structure CoverageReport where
  total_points : Nat := 0
  hit_points : Nat := 0
  hit_point_ids : Finset String := ∅
  missed_point_ids : Finset String := ∅
  points_detail : List (String × CoveragePoint) := []
  is_complete : Bool := false
deriving DecidableEq

/-- The `coverage_pct` property: percentage with an explicit guard against a
zero denominator. -/
def CoverageReport.coverage_pct (r : CoverageReport) : ℚ :=
  if r.total_points = 0 then 0
  else ((r.hit_points : ℚ) / (r.total_points : ℚ)) * 100

/-- The `missed_points` property: details of the missed ids, skipping ids
without detail.  Python iterates the `missed_point_ids` set in unspecified
order; the model iterates it in ascending order (no claim below depends on
this order). -/
def CoverageReport.missed_points (r : CoverageReport) : List CoveragePoint :=
  (r.missed_point_ids.sort (· ≤ ·)).filterMap (fun pid => alistLookup r.points_detail pid)

/-! ## Marker scanning (`coverage.parse_coverage_from_log`) -/

/-- Python `\w` on ASCII text: letters, digits and underscore. -/
def isWordChar (c : Char) : Bool := c.isAlphanum || c = '_'

/-- The character class `[\w:]` of the marker regex `COV:POINT=([\w:]+)`. -/
def isIdChar (c : Char) : Bool := isWordChar c || c = ':'

/-- Whether `pat` is a leading segment of `text`, character by character. -/
def charsLead : List Char → List Char → Bool
  | [], _ => true
  | _ :: _, [] => false
  | p :: ps, t :: ts => p = t && charsLead ps ts

/-- Whether the character sequence `needle` occurs contiguously somewhere in
`hay` (Python `re.search` on a literal pattern). -/
def containsSeq (needle : List Char) : List Char → Bool
  | [] => charsLead needle []
  | c :: cs => charsLead needle (c :: cs) || containsSeq needle cs

/-- One finditer pass of `_COV_MARKER_RE = COV:POINT=([\w:]+)` over the log
text: at each position try the literal prefix followed by a non-empty
maximal run of id characters, emit the run and continue after the match,
otherwise advance one character.  `fuel` bounds the scan (callers pass the
text length plus one). -/
def findMarkersAux (key : List Char) : Nat → List Char → List String
  | 0, _ => []
  | _ + 1, [] => []
  | fuel + 1, c :: cs =>
    if charsLead key (c :: cs) then
      let rest := (c :: cs).drop key.length
      let idRun := rest.takeWhile isIdChar
      if idRun.isEmpty then findMarkersAux key fuel cs
      else String.mk idRun :: findMarkersAux key fuel (rest.drop idRun.length)
    else findMarkersAux key fuel cs

/-- All marker ids found in a log, in order of appearance. -/
def findMarkers (log : String) : List String :=
  findMarkersAux "COV:POINT=".data (log.data.length + 1) log.data

/-- Embedding of `coverage.parse_coverage_from_log`.  Unknown marker ids
(not in the expected set) are dropped from the hit set, exactly as the
Python loop only adds known ids. -/
def parse_coverage_from_log (log_text : String) (expected_points : List CoveragePoint) :
    CoverageReport :=
  let all_ids : Finset String := (expected_points.map (·.point_id)).toFinset
  let detail := alistOfPoints expected_points
  let hit_ids : Finset String :=
    ((findMarkers log_text).filter (fun pid => decide (pid ∈ all_ids))).toFinset
  let is_complete := containsSeq "COV:COMPLETE".data log_text.data
  let missed_ids := all_ids \ hit_ids
  { total_points := all_ids.card
    hit_points := hit_ids.card
    hit_point_ids := hit_ids
    missed_point_ids := missed_ids
    points_detail := detail
    is_complete := is_complete }

/-- Concrete log for the worked example of C2: markers 1 and 2 fire. -/
def c2Log : String := "NOTE: start\nCOV:POINT=1\nCOV:POINT=2\nCOV:COMPLETE\n"

/-- Concrete expected points 1..5 for the worked example of C2. -/
def c2Points : List CoveragePoint :=
  [⟨"1", .STEP_ENTRY, 1, "p1", ""⟩, ⟨"2", .IF_TRUE, 3, "p2", "x > 1"⟩,
   ⟨"3", .IF_FALSE, 3, "p3", "x > 1"⟩, ⟨"4", .SELECT_WHEN, 8, "p4", "y = 2"⟩,
   ⟨"5", .SELECT_OTHERWISE, 10, "p5", ""⟩]

/-! ## Report merging (`coverage.merge_coverage_reports`) -/

/-- Embedding of `coverage.merge_coverage_reports` (the Python varargs are a
list; the `if not reports` early return is the empty case).  The Python loop
updates the detail dict, the id universe and the hit set in one pass; the
model folds each separately, which accumulates the same values in the same
order. -/
def merge_coverage_reports : List CoverageReport → CoverageReport
  | [] => {}
  | r :: rest =>
    let reports := r :: rest
    let all_detail := reports.foldl (fun acc t => dictUpdate acc t.points_detail) []
    let all_ids : Finset String :=
      reports.foldl (fun acc t => acc ∪ (t.hit_point_ids ∪ t.missed_point_ids)) ∅
    let all_hits : Finset String := reports.foldl (fun acc t => acc ∪ t.hit_point_ids) ∅
    let missed := all_ids \ all_hits
    { total_points := all_ids.card
      hit_points := all_hits.card
      hit_point_ids := all_hits
      missed_point_ids := missed
      points_detail := all_detail
      is_complete := reports.any (·.is_complete) }

/-! ### Dictionary lemmas for the merge algebra -/

/-- Value the Python update semantics assigns to key `k` from the entry list
`e` alone: the last entry of `e` with that key, if any. -/
def lastVal (e : List (String × CoveragePoint)) (k : String) : Option CoveragePoint :=
  e.foldl (fun acc p => if p.1 = k then some p.2 else acc) none

/-- Left-biased choice on optional values (defaulting to the second). -/
def orOpt (x y : Option CoveragePoint) : Option CoveragePoint :=
  match x with
  | some v => some v
  | none => y

/-! ### Merge algebra (C3) -/

/-- Union of the hit sets of a list of reports. -/
def unionHits (rs : List CoverageReport) : Finset String :=
  rs.foldr (fun r a => r.hit_point_ids ∪ a) ∅

/-- Union of hit and missed ids (the id universe) of a list of reports. -/
def unionIds (rs : List CoverageReport) : Finset String :=
  rs.foldr (fun r a => (r.hit_point_ids ∪ r.missed_point_ids) ∪ a) ∅

/-- Python `dict` equality on two detail maps: the same value (or absence)
at every key. -/
def dictEq (d e : List (String × CoveragePoint)) : Prop :=
  ∀ k, alistLookup d k = alistLookup e k

/-- Python dataclass equality `==` on two `CoverageReport`s: all six fields
compare equal (sets as sets, the detail dict as a mapping). -/
def CoverageReport.pyEq (r s : CoverageReport) : Prop :=
  r.total_points = s.total_points ∧ r.hit_points = s.hit_points ∧
  r.hit_point_ids = s.hit_point_ids ∧ r.missed_point_ids = s.missed_point_ids ∧
  dictEq r.points_detail s.points_detail ∧ r.is_complete = s.is_complete

/-- First input for the C3 counterexample: detail for id "a" says line 1. -/
def mergeCexR1 : CoverageReport :=
  { points_detail := [("a", ⟨"a", .STEP_ENTRY, 1, "first", ""⟩)] }

/-- Second input for the C3 counterexample: detail for id "a" says line 2. -/
def mergeCexR2 : CoverageReport :=
  { points_detail := [("a", ⟨"a", .STEP_ENTRY, 2, "second", ""⟩)] }

/-! ## JSON serialization (`coverage.CoverageReport.to_dict`) -/

/-- JSON values, as produced by the serialization of a report. -/
inductive Json where
  | num (q : ℚ)
  | str (s : String)
  | bool (b : Bool)
  | arr (items : List Json)
  | obj (fields : List (String × Json))

/-- Key lookup in a JSON object field list. -/
def jsonLookup : List (String × Json) → String → Option Json
  | [], _ => none
  | p :: ps, k => if p.1 = k then some p.2 else jsonLookup ps k

/-- The keys of a JSON object (empty for non-objects). -/
def Json.objKeys : Json → List String
  | .obj fields => fields.map Prod.fst
  | _ => []

/-- Round-half-to-even on a rational, modelling Python's `round` (Python
floats are modelled as exact rationals throughout). -/
def roundHalfEven (q : ℚ) : ℤ :=
  let n := ⌊q⌋
  let f := q - n
  if f < 1 / 2 then n
  else if 1 / 2 < f then n + 1
  else if Even n then n else n + 1

/-- Python `round(x, 2)` on the rational model. -/
def round2 (q : ℚ) : ℚ := (roundHalfEven (q * 100) : ℚ) / 100

/-- Embedding of `CoverageReport.to_dict`: the dictionary serialized to
JSON.  The Python dict-literal keys appear in source order. -/
def CoverageReport.to_dict (r : CoverageReport) : List (String × Json) :=
  [("total_points", Json.num r.total_points),
   ("hit_points", Json.num r.hit_points),
   ("coverage_pct", Json.num (round2 r.coverage_pct)),
   ("is_complete", Json.bool r.is_complete),
   ("hit_point_ids", Json.arr ((r.hit_point_ids.sort (· ≤ ·)).map Json.str)),
   ("missed_point_ids", Json.arr ((r.missed_point_ids.sort (· ≤ ·)).map Json.str)),
   ("missed_details", Json.arr (r.missed_points.map (fun cp =>
      Json.obj [("point_id", Json.str cp.point_id),
                ("type", Json.str cp.point_type.name),
                ("line", Json.num cp.line_number),
                ("description", Json.str cp.description),
                ("condition", Json.str cp.condition)])))]

/-- Concrete report for the C8 counterexample: one missed point with
detail. -/
def toDictCexReport : CoverageReport :=
  { total_points := 1
    hit_points := 0
    hit_point_ids := ∅
    missed_point_ids := {"m"}
    points_detail := [("m", ⟨"m", .IF_TRUE, 3, "IF true: x > 1", "x > 1"⟩)]
    is_complete := true }

/-! ## Comment stripping (`sas_parser._strip_comments`) -/

/-- Python `\s` (ASCII): space, tab, newline, carriage return, vertical tab
and form feed. -/
def pySpace (c : Char) : Bool :=
  c = ' ' || c = '\t' || c = '\n' || c = '\x0d' || c = '\x0b' || c = '\x0c'

/-- Length, in characters, up to and including the first `*/` of the list
(the lazy `.*?\*/` of `_BLOCK_COMMENT_RE`), if one exists. -/
def findCloseLen : List Char → Option Nat
  | [] => none
  | '*' :: '/' :: _ => some 2
  | _ :: rest => (findCloseLen rest).map (· + 1)

/-- One pass of `_BLOCK_COMMENT_RE.sub`: each `/* ... */` match (shortest
close, `re.DOTALL`) has its non-newline characters replaced by spaces, as
the inner `re.sub(r"[^\n]", " ", ...)` does; scanning continues after the
match. -/
def stripBlockAux : Nat → List Char → List Char
  | 0, s => s
  | _ + 1, [] => []
  | fuel + 1, '/' :: '*' :: rest =>
    (match findCloseLen rest with
     | some n =>
       (('/' :: '*' :: rest.take n).map (fun c => if c = '\n' then '\n' else ' ')) ++
         stripBlockAux fuel (rest.drop n)
     | none => '/' :: stripBlockAux fuel ('*' :: rest))
  | fuel + 1, c :: cs => c :: stripBlockAux fuel cs

/-- A match of `_LINE_COMMENT_RE = (?m)^\s*\*[^;]*;` starting at this
position (which the caller guarantees is a line start): greedy whitespace
(which may consume newlines), a literal `*`, a run of non-semicolon
characters (which may also span newlines), then `;`.  Returns the match
length. -/
def tryLineComment (l : List Char) : Option Nat :=
  let wsLen := (l.takeWhile pySpace).length
  match l.drop wsLen with
  | '*' :: rest2 =>
    let bodyLen := (rest2.takeWhile (fun c => c ≠ ';')).length
    (match rest2.drop bodyLen with
     | ';' :: _ => some (wsLen + 1 + bodyLen + 1)
     | _ => none)
  | _ => none

/-- One pass of `_LINE_COMMENT_RE.sub`: at each line start try the match,
and replace a match by the same number of spaces (`" " * len(m.group(0))`,
which also overwrites any newlines inside the match); otherwise advance one
character, tracking whether the next position starts a line. -/
def stripLineAux : Nat → Bool → List Char → List Char
  | 0, _, s => s
  | _ + 1, _, [] => []
  | fuel + 1, atStart, c :: cs =>
    if atStart then
      match tryLineComment (c :: cs) with
      | some n => List.replicate n ' ' ++ stripLineAux fuel false ((c :: cs).drop n)
      | none => c :: stripLineAux fuel (c = '\n') cs
    else c :: stripLineAux fuel (c = '\n') cs

/-- Embedding of `sas_parser._strip_comments`: block comments first, then
line comments. -/
def strip_comments (code : String) : String :=
  let afterBlock := stripBlockAux (code.data.length + 1) code.data
  String.mk (stripLineAux (afterBlock.length + 1) true afterBlock)

/-- Number of newline characters of a string (a text has one more line than
newlines). -/
def countNewlines (s : String) : Nat := s.data.countP (fun c => c = '\n')

/-- Failing input for C5: a `* ...;` line comment whose body spans a
newline. -/
def c5Input : String := "x;\n* c\nd;\ny;"

/-! ## Text scanning utilities for the parser and instrumenter

The regex searches of `sas_parser.py` and `sas_instrumenter.py` are
case-insensitive word-boundary searches; they are embedded as explicit
character scans over `List Char`.  Keyword arguments are passed lowercase. -/

/-- Python `\b` to the left: position 0 or a non-word character before. -/
def prevOk : Option Char → Bool
  | none => true
  | some p => !isWordChar p

/-- Case-insensitive match of a lowercase pattern at the head of the text. -/
def ciLead : List Char → List Char → Bool
  | [], _ => true
  | _ :: _, [] => false
  | p :: ps, t :: ts => (Char.toLower t = p) && ciLead ps ts

/-- Python `\b` to the right of a keyword of length `n`: end of text or a
non-word character. -/
def boundaryAfterN (n : Nat) (t : List Char) : Bool :=
  match t.drop n with
  | [] => true
  | c :: _ => !isWordChar c

/-- Whole-word case-insensitive search (`re.search(r"(?i)\bWORD\b", line)`),
scanning with the previous character for the left boundary. -/
def hasWordAux (w : List Char) : Nat → Option Char → List Char → Bool
  | 0, _, _ => false
  | _ + 1, _, [] => false
  | fuel + 1, prev, c :: cs =>
    (prevOk prev && ciLead w (c :: cs) && boundaryAfterN w.length (c :: cs)) ||
      hasWordAux w fuel (some c) cs

/-- Whether the line contains the (lowercase) keyword as a whole word. -/
def lineHasWord (w : String) (line : List Char) : Bool :=
  hasWordAux w.data (line.length + 1) none line

/-- Search for `\bW1\s+W2\b` (for example `THEN\s+DO`) in a line. -/
def hasKwPairAux (w1 w2 : List Char) : Nat → Option Char → List Char → Bool
  | 0, _, _ => false
  | _ + 1, _, [] => false
  | fuel + 1, prev, c :: cs =>
    (prevOk prev && ciLead w1 (c :: cs) &&
      (let r := (c :: cs).drop w1.length
       let ws := (r.takeWhile pySpace).length
       decide (1 ≤ ws) && ciLead w2 (r.drop ws) && boundaryAfterN w2.length (r.drop ws))) ||
      hasKwPairAux w1 w2 fuel (some c) cs

/-- Whether the line matches `(?i)\bW1\s+W2\b`. -/
def lineHasKwPair (w1 w2 : String) (line : List Char) : Bool :=
  hasKwPairAux w1.data w2.data (line.length + 1) none line

/-- Search for `\bEND\s*;` in a line (left word boundary only, as in the
source pattern). -/
def hasEndSemiAux : Nat → Option Char → List Char → Bool
  | 0, _, _ => false
  | _ + 1, _, [] => false
  | fuel + 1, prev, c :: cs =>
    (prevOk prev && ciLead "end".data (c :: cs) &&
      (let r := (c :: cs).drop 3
       match r.drop (r.takeWhile pySpace).length with
       | ';' :: _ => true
       | _ => false)) ||
      hasEndSemiAux fuel (some c) cs

/-- Whether the line matches `(?i)\bEND\s*;`. -/
def lineHasEndSemi (line : List Char) : Bool :=
  hasEndSemiAux (line.length + 1) none line

/-- Python `";" in line`. -/
def lineHasSemi (line : List Char) : Bool := line.any (fun c => c = ';')

/-- Python `text.split("\n")`. -/
def splitLinesAux : List Char → List Char → List (List Char)
  | [], acc => [acc.reverse]
  | '\n' :: cs, acc => acc.reverse :: splitLinesAux cs []
  | c :: cs, acc => splitLinesAux cs (c :: acc)

/-- The lines of a text (as `str.split("\n")`: a trailing newline yields a
final empty line). -/
def splitLines (text : List Char) : List (List Char) := splitLinesAux text []

/-- Python `str.strip()` on the character-list model. -/
def trimChars (l : List Char) : List Char :=
  ((l.dropWhile pySpace).reverse.dropWhile pySpace).reverse

/-- Character at an offset, if in range. -/
def charAt (body : List Char) (i : Nat) : Option Char := (body.drop i).head?

/-- Whether the character at the offset exists and is whitespace. -/
def isWsAt (body : List Char) (i : Nat) : Bool :=
  match charAt body i with
  | some c => pySpace c
  | none => false

/-- The slice `body[a:b]`. -/
def sliceList (body : List Char) (a b : Nat) : List Char := (body.drop a).take (b - a)

/-- Number of newlines before `pos` plus one (`sas_parser._line_number_at`). -/
def line_number_at (code : List Char) (pos : Nat) : Nat :=
  ((code.take pos).countP (fun c => c = '\n')) + 1

/-- Point-id construction `f"{file_id}:{n}"`. -/
def mkPid (fileId : String) (n : Nat) : String := fileId ++ ":" ++ Nat.repr n

/-! ## Decision-point extraction (`sas_parser._parse_data_step`) -/

/-- One match of `_IF_THEN_RE = (?i)\bIF\b\s+(.+?)\s+\bTHEN\b` (DOTALL):
offsets are relative to the DATA-step body, and the condition is
`group(1).strip()`. -/
structure IfMatch where
  start : Nat
  stop : Nat
  condition : List Char
deriving DecidableEq, Repr

/-- Find the first eligible `THEN` for an `IF` ending at `ifEnd`: a
case-insensitive whole word `then` at `t` with whitespace immediately
before it and at least one condition character between the whitespace runs
(`\s+(.+?)\s+` forces `t ≥ ifEnd + 3`). -/
def findThenFrom (body : List Char) (ifEnd : Nat) : Nat → Nat → Option Nat
  | 0, _ => none
  | fuel + 1, t =>
    if t ≥ body.length then none
    else if decide (ifEnd + 3 ≤ t) && isWsAt body (t - 1) &&
        ciLead "then".data (body.drop t) && boundaryAfterN 4 (body.drop t) then some t
    else findThenFrom body ifEnd fuel (t + 1)

/-- `finditer` of `_IF_THEN_RE` over the body: at each position try a
word-bounded `if` followed by whitespace and an eligible `then`; on a match
continue after its end, otherwise advance one position. -/
def findIfMatchesAux (body : List Char) : Nat → Nat → List IfMatch
  | 0, _ => []
  | fuel + 1, pos =>
    if pos ≥ body.length then []
    else if prevOk (if pos = 0 then none else charAt body (pos - 1)) &&
        ciLead "if".data (body.drop pos) && boundaryAfterN 2 (body.drop pos) &&
        isWsAt body (pos + 2) then
      match findThenFrom body (pos + 2) (body.length + 1) (pos + 3) with
      | some t =>
        { start := pos, stop := t + 4, condition := trimChars (sliceList body (pos + 2) t) } ::
          findIfMatchesAux body fuel (t + 4)
      | none => findIfMatchesAux body fuel (pos + 1)
    else findIfMatchesAux body fuel (pos + 1)

/-- All `IF ... THEN` matches of a DATA-step body, in order. -/
def findIfMatches (body : List Char) : List IfMatch :=
  findIfMatchesAux body (body.length + 1) 0

/-- One match of `_SELECT_RE` together with the `WHEN` and `OTHERWISE`
matches found inside its `SELECT ... END;` span: `start` is the offset of
the `SELECT` in the body, each `WHEN` carries its offset relative to the
span and its `group(1).strip()`, and `otherwiseStart` the offset of the
first `OTHERWISE`, when present. -/
structure SelectMatch where
  start : Nat
  whens : List (Nat × List Char)
  otherwiseStart : Option Nat
deriving DecidableEq, Repr

/-- Offset just past the first `)` of the list, if any (`[^)]*\)`). -/
def findCloseParen : List Char → Option Nat
  | [] => none
  | ')' :: _ => some 1
  | _ :: rest => (findCloseParen rest).map (· + 1)

/-- Match `_SELECT_RE = (?i)\bSELECT\s*(?:\(([^)]*)\))?\s*;` at a position:
returns the match length. -/
def trySelectAt (body : List Char) (pos : Nat) : Option Nat :=
  if prevOk (if pos = 0 then none else charAt body (pos - 1)) &&
      ciLead "select".data (body.drop pos) && boundaryAfterN 6 (body.drop pos) then
    let r := body.drop (pos + 6)
    let ws1 := (r.takeWhile pySpace).length
    match charAt r ws1 with
    | some '(' =>
      (match findCloseParen (r.drop (ws1 + 1)) with
       | some cl =>
         let afterParen := r.drop (ws1 + 1 + cl)
         let ws2 := (afterParen.takeWhile pySpace).length
         (match charAt afterParen ws2 with
          | some ';' => some (6 + ws1 + 1 + cl + ws2 + 1)
          | _ => none)
       | none => none)
    | some ';' => some (6 + ws1 + 1)
    | _ => none
  else none

/-- Search for `(?i)\bEND\s*;` in a text from a given offset, returning the
offset just past the `;` (the `end_match.end()` used to delimit the
`SELECT` span), if found. -/
def findEndSemiStop (body : List Char) : Nat → Nat → Option Nat
  | 0, _ => none
  | fuel + 1, pos =>
    if pos ≥ body.length then none
    else if prevOk (if pos = 0 then none else charAt body (pos - 1)) &&
        ciLead "end".data (body.drop pos) then
      let r := body.drop (pos + 3)
      let ws := (r.takeWhile pySpace).length
      match charAt r ws with
      | some ';' => some (pos + 3 + ws + 1)
      | _ => findEndSemiStop body fuel (pos + 1)
    else findEndSemiStop body fuel (pos + 1)

/-- `finditer` of `_WHEN_RE = (?i)\bWHEN\s*\(([^)]+)\)` over a `SELECT`
span: each hit yields its offset and `group(1).strip()`. -/
def findWhensAux (selBody : List Char) : Nat → Nat → List (Nat × List Char)
  | 0, _ => []
  | fuel + 1, pos =>
    if pos ≥ selBody.length then []
    else if prevOk (if pos = 0 then none else charAt selBody (pos - 1)) &&
        ciLead "when".data (selBody.drop pos) && boundaryAfterN 4 (selBody.drop pos) then
      let r := selBody.drop (pos + 4)
      let ws := (r.takeWhile pySpace).length
      match charAt r ws with
      | some '(' =>
        let inner := r.drop (ws + 1)
        let content := inner.takeWhile (fun c => c ≠ ')')
        (match inner.drop content.length with
         | ')' :: _ =>
           if content.length = 0 then findWhensAux selBody fuel (pos + 1)
           else (pos, trimChars content) ::
             findWhensAux selBody fuel (pos + 4 + ws + 1 + content.length + 1)
         | _ => findWhensAux selBody fuel (pos + 1))
      | _ => findWhensAux selBody fuel (pos + 1)
    else findWhensAux selBody fuel (pos + 1)

/-- Search for the first `(?i)\bOTHERWISE\b` in a `SELECT` span. -/
def findOtherwise (selBody : List Char) : Nat → Nat → Option Nat
  | 0, _ => none
  | fuel + 1, pos =>
    if pos ≥ selBody.length then none
    else if prevOk (if pos = 0 then none else charAt selBody (pos - 1)) &&
        ciLead "otherwise".data (selBody.drop pos) &&
        boundaryAfterN 9 (selBody.drop pos) then some pos
    else findOtherwise selBody fuel (pos + 1)

/-- `finditer` of `_SELECT_RE` over the body, each match paired with the
`WHEN`/`OTHERWISE` matches of its `SELECT ... END;` span; a `SELECT` with
no following `END;` is dropped (the Python `continue`). -/
def findSelectsAux (body : List Char) : Nat → Nat → List SelectMatch
  | 0, _ => []
  | fuel + 1, pos =>
    if pos ≥ body.length then []
    else
      match trySelectAt body pos with
      | some matchLen =>
        (match findEndSemiStop body (body.length + 1) pos with
         | some stop =>
           let selBody := sliceList body pos stop
           { start := pos
             whens := findWhensAux selBody (selBody.length + 1) 0
             otherwiseStart := findOtherwise selBody (selBody.length + 1) 0 } ::
             findSelectsAux body fuel (pos + matchLen)
         | none => findSelectsAux body fuel (pos + matchLen))
      | none => findSelectsAux body fuel (pos + 1)

/-- All `SELECT` matches of a DATA-step body. -/
def findSelects (body : List Char) : List SelectMatch :=
  findSelectsAux body (body.length + 1) 0

/-- Embedding of the `BlockType` enum. -/
inductive BlockType where
  | DATA_STEP
  | PROC_SQL
  | PROC_OTHER
deriving DecidableEq, Repr

/-- Embedding of the `VariableRef` dataclass of `sas_parser.py`. -/
structure VariableRef where
  name : String
  inferred_type : String := "unknown"
  source : String := ""
  line_number : Nat := 0
  format : String := ""
deriving DecidableEq, Repr

/-- Embedding of the `SASBlock` dataclass (text as character lists).  The
parsing claims below concern the coverage points and the block extent, so
`parse_data_step` models those fully; the `SET`/`MERGE`/`INPUT` and
condition-variable scans, which never touch the coverage-point list or the
id counter, are not modelled and leave `variables`/`input_datasets` at
their defaults (the dataset-generation claims quantify over arbitrary
blocks, so nothing below depends on how these two fields are filled).  The
field `variables_` carries the Python attribute `variables`, renamed
because `variables` is a reserved command. -/
structure SASBlock where
  block_type : BlockType
  name : String
  start_line : Nat
  end_line : Nat
  raw_text : List Char
  coverage_points : List CoveragePoint := []
  variables_ : List VariableRef := []
  input_datasets : List String := []
  output_datasets : List String := []
deriving Repr

/-- A match of `_DATA_STEP_RE = (?i)\bDATA\s+(names)\s*;(body)RUN\s*;`,
given to `_parse_data_step` as Python hands it a match object: the two
groups, the match start and the total match length. -/
structure DataStepMatch where
  namesRaw : List Char
  body : List Char
  start : Nat
  length : Nat
deriving Repr

/-- Python `re.split(r"\s+", s)` restricted to non-empty tokens (the list
comprehension filters out empty names). -/
def splitWsAux : List Char → List Char → List (List Char)
  | [], acc => if acc.isEmpty then [] else [acc.reverse]
  | c :: cs, acc =>
    if pySpace c then
      (if acc.isEmpty then splitWsAux cs [] else acc.reverse :: splitWsAux cs [])
    else splitWsAux cs (c :: acc)

/-- Whitespace-separated tokens of a text. -/
def splitWs (l : List Char) : List (List Char) := splitWsAux l []

/-- Python `name.strip("'\"")`: leading and trailing quote characters
removed. -/
def stripQuotes (l : List Char) : List Char :=
  ((l.dropWhile (fun c => c = '\'' || c = '"')).reverse.dropWhile
    (fun c => c = '\'' || c = '"')).reverse

/-- The paired `IF_TRUE`/`IF_FALSE` coverage points of the `IF` matches, in
match order, threading the id counter (two ids per match). -/
def ifPointsAux (code : List Char) (mstart : Nat) (fileId : String) :
    Nat → List IfMatch → List CoveragePoint × Nat
  | c, [] => ([], c)
  | c, ifm :: rest =>
    let cond := String.mk ifm.condition
    let ln := line_number_at code (mstart + ifm.start)
    let ptTrue : CoveragePoint :=
      { point_id := mkPid fileId (c + 1), point_type := .IF_TRUE, line_number := ln
        description := "IF true: " ++ String.mk (ifm.condition.take 60), condition := cond }
    let ptFalse : CoveragePoint :=
      { point_id := mkPid fileId (c + 2), point_type := .IF_FALSE, line_number := ln
        description := "IF false/ELSE: " ++ String.mk (ifm.condition.take 60), condition := cond }
    let rec2 := ifPointsAux code mstart fileId (c + 2) rest
    (ptTrue :: ptFalse :: rec2.1, rec2.2)

/-- The `SELECT_WHEN` points of one `SELECT` match, threading the counter. -/
def whenPointsAux (code : List Char) (selStartAbs : Nat) (fileId : String) :
    Nat → List (Nat × List Char) → List CoveragePoint × Nat
  | c, [] => ([], c)
  | c, (wstart, wcond) :: rest =>
    let pt : CoveragePoint :=
      { point_id := mkPid fileId (c + 1), point_type := .SELECT_WHEN
        line_number := line_number_at code (selStartAbs + wstart)
        description := "WHEN: " ++ String.mk (wcond.take 60), condition := String.mk wcond }
    let rec2 := whenPointsAux code selStartAbs fileId (c + 1) rest
    (pt :: rec2.1, rec2.2)

/-- The coverage points of the `SELECT` matches (`WHEN` points, then an
`OTHERWISE` point when a default clause exists), threading the counter. -/
def selectPointsAux (code : List Char) (mstart : Nat) (fileId : String) :
    Nat → List SelectMatch → List CoveragePoint × Nat
  | c, [] => ([], c)
  | c, sel :: rest =>
    let selStartAbs := mstart + sel.start
    let whenRes := whenPointsAux code selStartAbs fileId c sel.whens
    let afterOw : List CoveragePoint × Nat :=
      match sel.otherwiseStart with
      | some ow =>
        ([{ point_id := mkPid fileId (whenRes.2 + 1), point_type := .SELECT_OTHERWISE
            line_number := line_number_at code (selStartAbs + ow)
            description := "OTHERWISE branch" }], whenRes.2 + 1)
      | none => ([], whenRes.2)
    let recRest := selectPointsAux code mstart fileId afterOw.2 rest
    (whenRes.1 ++ afterOw.1 ++ recRest.1, recRest.2)

/-- Embedding of `sas_parser._parse_data_step`: build the `SASBlock` of one
DATA-step match, with its `STEP_ENTRY` point, the paired `IF` points and
the `SELECT` points; the mutable `point_counter` is threaded explicitly
(input counter in, final counter out). -/
def parse_data_step (m : DataStepMatch) (code : List Char) (counter : Nat)
    (fileId : String) : SASBlock × Nat :=
  let start_line := line_number_at code m.start
  let end_line := line_number_at code (m.start + m.length)
  let output_datasets :=
    (splitWs (trimChars m.namesRaw)).map (fun t => String.mk (stripQuotes t))
  let name := match output_datasets with
    | [] => "unknown"
    | n :: _ => n
  let entry : CoveragePoint :=
    { point_id := mkPid fileId (counter + 1), point_type := .STEP_ENTRY
      line_number := start_line, description := "DATA step entry: " ++ name }
  let ifRes := ifPointsAux code m.start fileId (counter + 1) (findIfMatches m.body)
  let selRes := selectPointsAux code m.start fileId ifRes.2 (findSelects m.body)
  ({ block_type := .DATA_STEP
     name := name
     start_line := start_line
     end_line := end_line
     raw_text := sliceList code m.start (m.start + m.length)
     coverage_points := entry :: (ifRes.1 ++ selRes.1)
     output_datasets := output_datasets }, selRes.2)

/-! ## Instrumentation (`sas_instrumenter._instrument_data_step`) -/

/-- `_make_put_statement`: the marker-emission statement for a point id. -/
def make_put_statement (pid : String) : List Char :=
  ("put \"COV:POINT=" ++ pid ++ "\";").data

/-- The clamped relative line `max(0, min(cp.line_number - block.start_line,
len(lines) - 1))`, in Python integer arithmetic. -/
def targetLine (lineNumber startLine n : Nat) : Nat :=
  (max 0 (min ((lineNumber : Int) - (startLine : Int)) ((n : Int) - 1))).toNat

/-- First index `i` in a window of `cnt` lines starting at `i0` whose line
satisfies the predicate (the bounded `for i in range(...)` searches). -/
def searchFrom (p : List Char → Bool) (lines : List (List Char)) :
    Nat → Nat → Option Nat
  | 0, _ => none
  | cnt + 1, i =>
    match (lines.drop i).head? with
    | none => none
    | some line => if p line then some i else searchFrom p lines cnt (i + 1)

/-- The line at an index (empty when out of range). -/
def lineAt (lines : List (List Char)) (i : Nat) : List Char := ((lines.drop i).head?).getD []

/-- The depth-counting scan for the `END;` matching a `THEN DO`: from line
`j`, `\bDO\b` increments and `END\s*;` decrements; the line where the depth
reaches zero is returned (both tests run on every line, as in the source
loop). -/
def findDepthEnd (lines : List (List Char)) : Nat → Nat → Int → Option Nat
  | 0, _, _ => none
  | fuel + 1, j, depth =>
    match (lines.drop j).head? with
    | none => none
    | some line =>
      let depth1 := if lineHasWord "do" line then depth + 1 else depth
      if lineHasEndSemi line then
        (if depth1 - 1 = 0 then some j else findDepthEnd lines fuel (j + 1) (depth1 - 1))
      else findDepthEnd lines fuel (j + 1) depth1

/-- The insertions one coverage point contributes in
`_instrument_data_step`: pairs `(line_index, text)`.  Every search window
is bounded exactly as in the source (`+3` for `THEN`/`WHEN`/`OTHERWISE`,
`+10` for `ELSE`, `+15` for the `THEN` of a synthesized else); a point
whose search fails contributes nothing.  The source's `THEN DO` and plain
`THEN` branches insert identical text, as do the `ELSE DO` and plain
`ELSE` branches, so each is a single case here. -/
def insertionsFor (lines : List (List Char)) (startLine : Nat) (cp : CoveragePoint) :
    List (Nat × List Char) :=
  let n := lines.length
  let put := make_put_statement cp.point_id
  match cp.point_type with
  | .STEP_ENTRY => [(1, "  ".data ++ put)]
  | .IF_TRUE =>
    let t := targetLine cp.line_number startLine n
    (match searchFrom (lineHasWord "then") lines (min (t + 3) n - t) t with
     | some i => [(i + 1, "    ".data ++ put)]
     | none => [])
  | .IF_FALSE =>
    let t := targetLine cp.line_number startLine n
    (match searchFrom (lineHasWord "else") lines (min (t + 10) n - t) t with
     | some i => [(i + 1, "    ".data ++ put)]
     | none =>
       match searchFrom (lineHasWord "then") lines (min (t + 15) n - t) t with
       | none => []
       | some i =>
         if lineHasKwPair "then" "do" (lineAt lines i) then
           (match findDepthEnd lines (n + 1) (i + 1) 1 with
            | some j => [(j + 1, "  else ".data ++ put)]
            | none => [])
         else
           (match searchFrom lineHasSemi lines (n - i) i with
            | some j => [(j + 1, "  else ".data ++ put)]
            | none => []))
  | .SELECT_WHEN =>
    let t := targetLine cp.line_number startLine n
    (match searchFrom (lineHasWord "when") lines (min (t + 3) n - t) t with
     | some i => [(i + 1, "    ".data ++ put)]
     | none => [])
  | .SELECT_OTHERWISE =>
    let t := targetLine cp.line_number startLine n
    (match searchFrom (lineHasWord "otherwise") lines (min (t + 3) n - t) t with
     | some i => [(i + 1, "    ".data ++ put)]
     | none => [])
  | _ => []

/-- Stable insertion of one element into a descending-by-index list: equal
indices keep their original relative order, as with Python's stable
`sort(key=..., reverse=True)`. -/
def insertDesc (x : Nat × List Char) : List (Nat × List Char) → List (Nat × List Char)
  | [] => [x]
  | y :: ys => if y.1 < x.1 then x :: y :: ys else y :: insertDesc x ys

/-- The stable descending sort of the insertion list. -/
def sortInsertionsDesc (l : List (Nat × List Char)) : List (Nat × List Char) :=
  l.foldl (fun acc x => insertDesc x acc) []

/-- Application of the sorted insertions: each index is clamped to the
current length and the text inserted there (`lines.insert`). -/
def applyInsertions (lines : List (List Char)) (ins : List (Nat × List Char)) :
    List (List Char) :=
  ins.foldl (fun ls p => ls.insertIdx (min p.1 ls.length) p.2) lines

/-- Python `"\n".join`. -/
def joinLines : List (List Char) → List Char
  | [] => []
  | [l] => l
  | l :: ls => l ++ '\n' :: joinLines ls

/-- Embedding of `sas_instrumenter._instrument_data_step`: split the raw
block text into lines, collect the insertions of all coverage points in
order, sort them by line index descending (stable) and apply them. -/
def instrument_data_step (block : SASBlock) (raw_code : List Char) : List Char :=
  let lines := splitLines raw_code
  let insertions := block.coverage_points.flatMap (insertionsFor lines block.start_line)
  joinLines (applyInsertions lines (sortInsertionsDesc insertions))

/-- Program for the C4 counterexample: an `IF` with no `ELSE` whose
condition spans sixteen lines, so the `THEN` lies outside the
instrumenter's 15-line search window. -/
def c4cexCode : String :=
  "data d;\nif\nb0\nb1\nb2\nb3\nb4\nb5\nb6\nb7\nb8\nb9\nb10\nb11\nb12\nb13\nb14\nb15\nthen y = 2;\nrun;"

/-- The `_DATA_STEP_RE` match of `c4cexCode` (groups, start and length as
Python's regex produces them). -/
def c4cexMatch : DataStepMatch :=
  { namesRaw := "d".data
    body :=
      "\nif\nb0\nb1\nb2\nb3\nb4\nb5\nb6\nb7\nb8\nb9\nb10\nb11\nb12\nb13\nb14\nb15\nthen y = 2;\n".data
    start := 0
    length := 81 }

/-- Program for the C4 witness: an `IF` with no `ELSE` whose `THEN` is on
the same line, well inside the search windows. -/
def c4wCode : String := "data d;\nif x > 1 then y = 2;\nrun;"

/-- The `_DATA_STEP_RE` match of `c4wCode`. -/
def c4wMatch : DataStepMatch :=
  { namesRaw := "d".data, body := "\nif x > 1 then y = 2;\n".data, start := 0, length := 33 }

/-- The block extracted from `c4wCode`. -/
def c4wBlk : SASBlock := (parse_data_step c4wMatch c4wCode.data 0 "inline").1

/-- The `IF_FALSE` point of `c4wBlk`. -/
def c4wCp : CoveragePoint :=
  { point_id := "inline:3", point_type := .IF_FALSE, line_number := 1
    description := "IF false/ELSE: x > 1", condition := "x > 1" }

/-! ## Dataset generation data model (`dataset_generator.py`) -/

/-- Embedding of the `ParseResult` dataclass of `sas_parser.py`. -/
structure ParseResult where
  file_path : String
  blocks : List SASBlock := []
  all_coverage_points : List CoveragePoint := []
  all_variables : List VariableRef := []
  errors : List String := []
deriving Repr

/-- A cell value of a generated table: number, text, date (days since
1960-01-01, the SAS epoch used by the source) or missing (`np.nan`). -/
inductive Value where
  | num (q : ℚ)
  | str (s : String)
  | date (days : Int)
  | missing
deriving DecidableEq, Repr

/-- A `pandas.DataFrame` modelled as its column names and its rows, each
row aligned with the column list. -/
structure DataFrame where
  cols : List String
  rows : List (List Value)
deriving DecidableEq, Repr

/-- Embedding of the `GeneratedDataset` dataclass. -/
structure GeneratedDataset where
  name : String
  df : DataFrame
  csv_path : String := ""
  generation_notes : List String := []
deriving DecidableEq, Repr

/-- Model of `numpy.random.default_rng(seed)`: a pure pseudo-random
generator (a linear congruential step stands in for PCG64 — every claim
below depends only on the generator being a pure function of its state,
never on the values drawn). -/
structure Rng where
  state : Nat
deriving DecidableEq, Repr

/-- Seeding: `np.random.default_rng(seed)`. -/
def default_rng (seed : Nat) : Rng := ⟨seed⟩

/-- One step of the modelled generator. -/
def Rng.next (r : Rng) : Nat × Rng :=
  let s := (r.state * 1103515245 + 12345) % 4294967296
  (s, ⟨s⟩)

/-- `rng.choice(pool)` for one draw from a value pool. -/
def Rng.choice (r : Rng) (pool : List Value) : Value × Rng :=
  let n := r.next
  (pool.getD (n.1 % pool.length) Value.missing, n.2)

/-- `rng.choice(pool, size=k)`: `k` draws in sequence. -/
def Rng.choiceN (r : Rng) (pool : List Value) : Nat → List Value × Rng
  | 0 => ([], r)
  | k + 1 =>
    let d := r.choice pool
    let rest := d.2.choiceN pool k
    (d.1 :: rest.1, rest.2)

/-- `rng.uniform(low, high, size=k)` modelled as draws mapped into the
requested interval. -/
def Rng.uniformN (r : Rng) (low high : ℚ) : Nat → List ℚ × Rng
  | 0 => ([], r)
  | k + 1 =>
    let n := r.next
    let v := low + (high - low) * ((n.1 % 1000 : Nat) : ℚ) / 1000
    let rest := n.2.uniformN low high k
    (v :: rest.1, rest.2)

/-- `rng.integers(lo, hi)`: one bounded draw. -/
def Rng.integers (r : Rng) (lo hi : Nat) : Nat × Rng :=
  let n := r.next
  (lo + n.1 % (hi - lo), n.2)

/-- `rng.choice(n, size=k, replace=False)`: `k` distinct indices below
`n`, modelled by drawing from the shrinking list of remaining indices. -/
def Rng.sampleIdx (r : Rng) : List Nat → Nat → List Nat × Rng
  | _, 0 => ([], r)
  | remaining, k + 1 =>
    if remaining.isEmpty then ([], r)
    else
      let n := r.next
      let i := n.1 % remaining.length
      let x := remaining.getD i 0
      let rest := Rng.sampleIdx n.2 (remaining.eraseIdx i) k
      (x :: rest.1, rest.2)

/-- Program for the C6 counterexample: three decision points (step entry
plus an `IF` pair), but the `IF` condition spans sixteen lines so neither
branch search finds its keyword. -/
def c6cexCode : String :=
  "data d;\nif\na0\na1\na2\na3\na4\na5\na6\na7\na8\na9\na10\na11\na12\na13\na14\na15\nthen y = 2;\nrun;"

/-- The `_DATA_STEP_RE` match of `c6cexCode`. -/
def c6cexMatch : DataStepMatch :=
  { namesRaw := "d".data
    body :=
      "\nif\na0\na1\na2\na3\na4\na5\na6\na7\na8\na9\na10\na11\na12\na13\na14\na15\nthen y = 2;\n".data
    start := 0
    length := 81 }

/-- Program for the C6 witness. -/
def c6wCode : String := "data w;\nif a >= 2 then b = 1;\nrun;"

/-- The `_DATA_STEP_RE` match of `c6wCode`. -/
def c6wMatch : DataStepMatch :=
  { namesRaw := "w".data, body := "\nif a >= 2 then b = 1;\n".data, start := 0, length := 34 }

/-- The block extracted from `c6wCode`. -/
def c6wBlk : SASBlock := (parse_data_step c6wMatch c6wCode.data 0 "inline").1

/-! ## Condition matching (`dataset_generator` regexes)

The comparison regex `(\w+)\s*(>=?|<=?|=|ne|eq|gt|lt|ge|le)\s*(\d+\.?\d*)`
is embedded as an explicit backtracking matcher: the greedy `(\w+)` gives
characters back when a textual operator is glued to the variable name, the
alternatives are tried in the pattern's order, and the whitespace runs are
deterministic because no operator or digit is whitespace. -/

/-- Operator alternatives of `_add_targeted_rows`, in alternation order
(`>=?` prefers the two-character form). -/
def mutateOps : List String :=
  [">=", ">", "<=", "<", "=", "ne", "eq", "gt", "lt", "ge", "le"]

/-- Operator alternatives of `_extract_threshold_values` (same set, with
`eq` before `ne` as in that pattern). -/
def extractOps : List String :=
  [">=", ">", "<=", "<", "=", "eq", "ne", "gt", "lt", "ge", "le"]

/-- Parse `(\d+\.?\d*)` at the head of the text: value and length. -/
def parseNumAt (l : List Char) : Option (ℚ × Nat) :=
  let d1 := l.takeWhile Char.isDigit
  if d1.isEmpty then none
  else
    let intPart : Nat := d1.foldl (fun acc c => acc * 10 + (c.toNat - 48)) 0
    match l.drop d1.length with
    | '.' :: rest =>
      let d2 := rest.takeWhile Char.isDigit
      let fracNum : Nat := d2.foldl (fun acc c => acc * 10 + (c.toNat - 48)) 0
      some ((intPart : ℚ) + (fracNum : ℚ) / ((10 : ℚ) ^ d2.length),
        d1.length + 1 + d2.length)
    | _ => some ((intPart : ℚ), d1.length)

/-- Try each operator alternative in order at the head of the text; on a
match the rest of the pattern (`\s*` then the number) must also succeed,
otherwise the next alternative is tried, as the regex engine does. -/
def tryOpsAt : List String → List Char → Option (String × ℚ × Nat)
  | [], _ => none
  | op :: rest, l =>
    if ciLead op.data l then
      let afterOp := l.drop op.length
      let ws2 := (afterOp.takeWhile pySpace).length
      match parseNumAt (afterOp.drop ws2) with
      | some (thr, dn) => some (op, thr, op.length + ws2 + dn)
      | none => tryOpsAt rest l
    else tryOpsAt rest l

/-- Backtrack the greedy `(\w+)` from the longest variable-name prefix
down to one character, trying the operator-and-number tail at each cut. -/
def tryCmpVar (ops : List String) (s : List Char) (w : List Char) :
    Nat → Option (String × String × ℚ × Nat)
  | 0 => none
  | k + 1 =>
    let rest := s.drop (k + 1)
    let ws := (rest.takeWhile pySpace).length
    match tryOpsAt ops (rest.drop ws) with
    | some (op, thr, tailLen) =>
      some (String.mk (w.take (k + 1)), op, thr, k + 1 + ws + tailLen)
    | none => tryCmpVar ops s w k

/-- Try the full comparison pattern at the current position. -/
def tryCmpAt (ops : List String) (s : List Char) : Option (String × String × ℚ × Nat) :=
  let w := s.takeWhile isWordChar
  if w.isEmpty then none else tryCmpVar ops s w w.length

/-- `finditer` of the comparison pattern: scan positions left to right,
continuing after each match. -/
def findCmpsAux (ops : List String) : Nat → List Char → List (String × String × ℚ)
  | 0, _ => []
  | _ + 1, [] => []
  | fuel + 1, l@(_ :: cs) =>
    match tryCmpAt ops l with
    | some (v, op, thr, len) => (v, op, thr) :: findCmpsAux ops fuel (l.drop len)
    | none => findCmpsAux ops fuel cs

/-- All comparison matches `(var, op, threshold)` of a condition text. -/
def findCmps (ops : List String) (condition : List Char) : List (String × String × ℚ) :=
  findCmpsAux ops (condition.length + 1) condition

/-- Try the string-equality pattern `(\w+)\s*=\s*['"]([^'"]*?)['"]` at the
current position (no backtracking into `(\w+)` is possible here: `=` is
not a word character). -/
def tryStrEqAt (s : List Char) : Option (String × String × Nat) :=
  let w := s.takeWhile isWordChar
  if w.isEmpty then none
  else
    let rest := s.drop w.length
    let ws1 := (rest.takeWhile pySpace).length
    match rest.drop ws1 with
    | '=' :: rest2 =>
      let ws2 := (rest2.takeWhile pySpace).length
      (match rest2.drop ws2 with
       | q :: rest3 =>
         if q = '\'' || q = '"' then
           let content := rest3.takeWhile (fun c => c ≠ '\'' && c ≠ '"')
           (match rest3.drop content.length with
            | q2 :: _ =>
              if q2 = '\'' || q2 = '"' then
                some (String.mk w, String.mk content,
                  w.length + ws1 + 1 + ws2 + 1 + content.length + 1)
              else none
            | [] => none)
         else none
       | [] => none)
    | _ => none

/-- `finditer` of the string-equality pattern. -/
def findStrEqsAux : Nat → List Char → List (String × String)
  | 0, _ => []
  | _ + 1, [] => []
  | fuel + 1, l@(_ :: cs) =>
    match tryStrEqAt l with
    | some (v, sv, len) => (v, sv) :: findStrEqsAux fuel (l.drop len)
    | none => findStrEqsAux fuel cs

/-- All string-equality matches `(var, literal)` of a condition text. -/
def findStrEqs (condition : List Char) : List (String × String) :=
  findStrEqsAux (condition.length + 1) condition

/-- Case-insensitive column resolution: Python's
`next(c for c in columns if c.lower() == var_name)` guarded by the
membership test. -/
def resolveColumn (columns : List String) (varName : String) : Option String :=
  columns.find? (fun c => strToLower c == varName)

/-- Embedding of `dataset_generator._add_targeted_rows`: the first numeric
comparison whose variable is a column yields one row setting that column
to the satisfying/violating value; otherwise the first string equality
whose variable is a column yields one row with the literal (or the
non-matching sentinel).  At most one row is produced per call. -/
def add_targeted_rows (condition : String) (columns : List String)
    (target_true : Bool) : Option (String × Value) :=
  match (findCmps mutateOps condition.data).find?
      (fun m => (resolveColumn columns (strToLower m.1)).isSome) with
  | some (v, op, thr) =>
    (resolveColumn columns (strToLower v)).map (fun colName =>
      (colName, Value.num (if target_true then value_to_satisfy (strToLower op) thr
        else value_to_violate (strToLower op) thr)))
  | none =>
    match (findStrEqs condition.data).find?
        (fun m => (resolveColumn columns (strToLower m.1)).isSome) with
    | some (v, sv) =>
      (resolveColumn columns (strToLower v)).map (fun colName =>
        (colName, Value.str (if target_true then sv else "ZZZZ_NOMATCH")))
    | none => none

/-- Embedding of `dataset_generator._add_edge_case_rows`: a row with every
column missing, then a row with an extreme value drawn per column. -/
def add_edge_case_rows (rng : Rng) (columns : List String) :
    List (List (String × Value)) × Rng :=
  let missingRow := columns.map (fun c => (c, Value.missing))
  let extreme := columns.foldl
    (fun (acc : List (String × Value) × Rng) c =>
      let d := acc.2.choice [Value.num 999999, Value.num (-999999), Value.num 0]
      (acc.1 ++ [(c, d.1)], d.2)) ([], rng)
  ([missingRow, extreme.1], extreme.2)

/-! ## Mutation (`dataset_generator.mutate_datasets`) -/

/-- The rows one missed coverage point contributes for a dataset
(`mutate_datasets` loop body): points without condition text are skipped,
branch and when/case-when points get a targeted row, otherwise/case-else
points get the two edge-case rows. -/
def pointRows (rng : Rng) (columns : List String) (cp : CoveragePoint) :
    List (List (String × Value)) × Rng :=
  if cp.condition = "" then ([], rng)
  else
    match cp.point_type with
    | .IF_TRUE =>
      ((add_targeted_rows cp.condition columns true).elim [] (fun r => [[r]]), rng)
    | .IF_FALSE =>
      ((add_targeted_rows cp.condition columns false).elim [] (fun r => [[r]]), rng)
    | .SELECT_WHEN =>
      ((add_targeted_rows cp.condition columns true).elim [] (fun r => [[r]]), rng)
    | .SQL_CASE_WHEN =>
      ((add_targeted_rows cp.condition columns true).elim [] (fun r => [[r]]), rng)
    | .SELECT_OTHERWISE => add_edge_case_rows rng columns
    | .SQL_CASE_ELSE => add_edge_case_rows rng columns
    | _ => ([], rng)

/-- The accumulated `new_rows` of one dataset: fold over the missed points
in order, threading the generator. -/
def newRowsAux (columns : List String) : Rng → List CoveragePoint →
    List (List (String × Value)) × Rng
  | rng, [] => ([], rng)
  | rng, cp :: rest =>
    let pr := pointRows rng columns cp
    let r2 := newRowsAux columns pr.2 rest
    (pr.1 ++ r2.1, r2.2)

/-- First-occurrence deduplication of a string list (key order of a dict
built by insertion), with an accumulator of already-seen keys. -/
def dedupFirstAux : List String → List String → List String
  | _, [] => []
  | seen, s :: rest =>
    if seen.contains s then dedupFirstAux seen rest
    else s :: dedupFirstAux (s :: seen) rest

/-- First-occurrence deduplication of a string list. -/
def dedupFirst (l : List String) : List String := dedupFirstAux [] l

/-- Row-dictionary lookup. -/
def rowLookup (r : List (String × Value)) (k : String) : Option Value :=
  (r.find? (fun p => p.1 == k)).map Prod.snd

/-- `pd.DataFrame(new_rows)` from a list of row dictionaries: the columns
are the keys in first-appearance order, missing keys become `NaN`. -/
def mkDataFrame (rows : List (List (String × Value))) : DataFrame :=
  let cols := dedupFirst (rows.flatMap (fun r => r.map Prod.fst))
  { cols := cols
    rows := rows.map (fun r => cols.map (fun c => (rowLookup r c).getD Value.missing)) }

/-- Value of a dataframe row at a named column. -/
def dfCell (cols : List String) (row : List Value) (c : String) : Value :=
  ((cols.zip row).find? (fun p => p.1 == c)).elim Value.missing Prod.snd

/-- The column alignment of `mutate_datasets`: add each target column the
mutation frame lacks as `NaN`, then select the target columns in order
(`mutation_df[ds.df.columns]`). -/
def alignColumns (mdf : DataFrame) (targetCols : List String) : DataFrame :=
  let extra := targetCols.filter (fun c => ¬ mdf.cols.contains c)
  let cols' := mdf.cols ++ extra
  let rows' := mdf.rows.map (fun r => r ++ extra.map (fun _ => Value.missing))
  { cols := targetCols
    rows := rows'.map (fun r => targetCols.map (fun c => dfCell cols' r c)) }

/-- The per-dataset step of `mutate_datasets`: build the targeted rows; if
any, align them to the dataset's columns and append them (a fresh
`GeneratedDataset` with a mutation note and a default `csv_path`, as the
Python constructor call produces); otherwise keep the dataset unchanged. -/
def mutateOne (missed : List CoveragePoint) (rng : Rng) (ds : GeneratedDataset) :
    GeneratedDataset × Rng :=
  let nr := newRowsAux ds.df.cols rng missed
  if nr.1.isEmpty then (ds, nr.2)
  else
    let mdf := alignColumns (mkDataFrame nr.1) ds.df.cols
    ({ name := ds.name
       df := { cols := ds.df.cols, rows := ds.df.rows ++ mdf.rows }
       generation_notes := ds.generation_notes ++
         ["Mutated: added " ++ Nat.repr nr.1.length ++ " targeted rows"] }, nr.2)

/-- The dataset loop of `mutate_datasets`, threading the generator. -/
def mutateAux (missed : List CoveragePoint) : Rng → List GeneratedDataset →
    List GeneratedDataset × Rng
  | rng, [] => ([], rng)
  | rng, ds :: rest =>
    let one := mutateOne missed rng ds
    let r2 := mutateAux missed one.2 rest
    (one.1 :: r2.1, r2.2)

/-- Embedding of `dataset_generator.mutate_datasets`: no missed points
means the input list is returned unchanged; otherwise each dataset gets
the rows targeted at the missed points appended.  `parse_result` and
`mutation_rows` are parameters the Python body never reads. -/
def mutate_datasets (datasets : List GeneratedDataset)
    (coverage_report : CoverageReport) (parse_result : ParseResult)
    (seed : Nat) (mutation_rows : Nat) : List GeneratedDataset :=
  let rng := default_rng seed
  let missed := coverage_report.missed_points
  if missed.isEmpty then datasets
  else (mutateAux missed rng datasets).1

/-- Number of rows a missed point contributes for a dataset with the given
columns: one targeted row when the branch's condition carries a comparison
or string equality over one of the columns, two edge-case rows for
otherwise/case-else points with condition text, zero rows otherwise.  The
count never depends on the generator state. -/
def pointRowCount (columns : List String) (cp : CoveragePoint) : Nat :=
  if cp.condition = "" then 0
  else
    match cp.point_type with
    | .IF_TRUE => if (add_targeted_rows cp.condition columns true).isSome then 1 else 0
    | .IF_FALSE => if (add_targeted_rows cp.condition columns false).isSome then 1 else 0
    | .SELECT_WHEN => if (add_targeted_rows cp.condition columns true).isSome then 1 else 0
    | .SQL_CASE_WHEN => if (add_targeted_rows cp.condition columns true).isSome then 1 else 0
    | .SELECT_OTHERWISE => 2
    | .SQL_CASE_ELSE => 2
    | _ => 0

/-- A coverage report with no missed points (every field at its default). -/
def c7emptyCr : CoverageReport := {}

/-- A one-column, one-row dataset for the C7 witness. -/
def c7wDs : GeneratedDataset :=
  { name := "input", df := { cols := ["age"], rows := [[Value.num 30]] } }

/-- An empty parse result for the C7 witness (the Python body never reads
this argument). -/
def c7wPr : ParseResult := { file_path := "inline" }

/-! ## Seed generation (`dataset_generator.generate_seed_datasets`)

The seed phase is embedded in full: threshold and string extraction from
conditions, per-column value generation with the generator threaded in
program order, and the dataset loop.  Python's `list(set(values))` in
`_extract_string_values` is the one place the code observes interpreter
state (the string-hash-dependent set iteration order); it is modelled as
an explicit `setOrder` parameter applied to the distinct elements in
first-occurrence order. -/

/-- Digit run to its numeric value. -/
def digitsVal (l : List Char) : Nat :=
  l.foldl (fun a c => a * 10 + (c.toNat - 48)) 0

/-- Python `float(s)` on an already-stripped literal: optional sign,
digits with an optional fraction (at least one digit overall), optional
exponent.  Non-finite literals (`inf`, `nan`) and digit-group underscores
lie outside the rational model; such entries return `none` and are
skipped exactly like the `ValueError` branch. -/
def pyFloat? (l : List Char) : Option ℚ :=
  let sgn : ℚ × List Char :=
    match l with
    | '+' :: r => (1, r)
    | '-' :: r => (-1, r)
    | r => (1, r)
  let d1 := sgn.2.takeWhile Char.isDigit
  let afterInt := sgn.2.drop d1.length
  let mant : Option (ℚ × List Char) :=
    match afterInt with
    | '.' :: r2 =>
      let d2 := r2.takeWhile Char.isDigit
      if d1.isEmpty && d2.isEmpty then none
      else some ((digitsVal d1 : ℚ) + (digitsVal d2 : ℚ) / (10 : ℚ) ^ d2.length,
        r2.drop d2.length)
    | _ => if d1.isEmpty then none else some ((digitsVal d1 : ℚ), afterInt)
  match mant with
  | none => none
  | some (m, rest) =>
    match rest with
    | [] => some (sgn.1 * m)
    | e :: r3 =>
      if e = 'e' || e = 'E' then
        let esgn : Bool × List Char :=
          match r3 with
          | '+' :: r => (true, r)
          | '-' :: r => (false, r)
          | r => (true, r)
        let ed := esgn.2.takeWhile Char.isDigit
        if ed.isEmpty then none
        else if (esgn.2.drop ed.length).isEmpty then
          some (sgn.1 * m *
            (if esgn.1 then (10 : ℚ) ^ digitsVal ed else 1 / (10 : ℚ) ^ digitsVal ed))
        else none
      else none

/-- Python `content.split(",")` (empty segments kept). -/
def splitOnCommaAux : List Char → List Char → List (List Char)
  | [], acc => [acc.reverse]
  | ',' :: cs, acc => acc.reverse :: splitOnCommaAux cs []
  | c :: cs, acc => splitOnCommaAux cs (c :: acc)

/-- The comma-separated segments of an `IN`-list body. -/
def splitOnComma (l : List Char) : List (List Char) := splitOnCommaAux l []

/-- One `finditer` pass of `\bin\s*\(([^)]+)\)` (case-insensitive): a
word-bounded `in`, optional whitespace, then a parenthesised non-empty
body without a closing parenthesis inside; scanning resumes after each
match. -/
def findInListsAux : Nat → Option Char → List Char → List (List Char)
  | 0, _, _ => []
  | _ + 1, _, [] => []
  | fuel + 1, prev, c :: cs =>
    if prevOk prev && ciLead "in".data (c :: cs) then
      let r := (c :: cs).drop 2
      let ws := (r.takeWhile pySpace).length
      match r.drop ws with
      | '(' :: r2 =>
        let content := r2.takeWhile (fun x => x ≠ ')')
        (match r2.drop content.length with
         | ')' :: rest =>
           if content.isEmpty then findInListsAux fuel (some c) cs
           else content :: findInListsAux fuel (some ')') rest
         | _ => findInListsAux fuel (some c) cs)
      | _ => findInListsAux fuel (some c) cs
    else findInListsAux fuel (some c) cs

/-- All `IN`-list bodies of a condition. -/
def findInLists (condition : List Char) : List (List Char) :=
  findInListsAux (condition.length + 1) none condition

/-- Embedding of `dataset_generator._extract_threshold_values`: boundary
triples around every direct comparison threshold (a pair for `ne`), then
the numeric entries of every `IN` list. -/
def extract_threshold_values (condition : String) : List ℚ :=
  let direct := (findCmps extractOps condition.data).flatMap (fun m =>
    let op := m.2.1
    let thr := m.2.2
    if op = ">" ∨ op = "gt" then [thr - 1, thr, thr + 1]
    else if op = ">=" ∨ op = "ge" then [thr - 1, thr, thr + 1]
    else if op = "<" ∨ op = "lt" then [thr - 1, thr, thr + 1]
    else if op = "<=" ∨ op = "le" then [thr - 1, thr, thr + 1]
    else if op = "=" ∨ op = "eq" then [thr - 1, thr, thr + 1]
    else if op = "ne" then [thr, thr + 1]
    else [])
  let inVals := (findInLists condition.data).flatMap (fun content =>
    (splitOnComma content).filterMap (fun seg => pyFloat? (stripQuotes (trimChars seg))))
  direct ++ inVals

/-- One `finditer` pass of the quoted-literal pattern
`['"]([^'"]*?)['"]`: the lazy body stops at the first quote character, a
closing quote must follow, scanning resumes after it. -/
def findQuotedAux : Nat → List Char → List String
  | 0, _ => []
  | _ + 1, [] => []
  | fuel + 1, c :: cs =>
    if c = '\'' || c = '"' then
      let content := cs.takeWhile (fun x => x ≠ '\'' && x ≠ '"')
      match cs.drop content.length with
      | _ :: rest => String.mk content :: findQuotedAux fuel rest
      | [] => findQuotedAux fuel cs
    else findQuotedAux fuel cs

/-- All quoted literals of a condition. -/
def findQuoted (condition : List Char) : List String :=
  findQuotedAux (condition.length + 1) condition

/-- Python `s.upper()`. -/
def strToUpper (s : String) : String := String.mk (s.data.map Char.toUpper)

/-- Embedding of `dataset_generator._extract_string_values`: the quoted
literals, then per literal its uppercase form (when different), the empty
string and its first character (when non-empty); `list(set(values))` is
the interpreter's enumeration of the distinct elements, modelled as
`setOrder` applied to them in first-occurrence order. -/
def extract_string_values (setOrder : List String → List String)
    (condition : String) : List String :=
  let values := findQuoted condition.data
  let extra := values.flatMap (fun v =>
    (if strToUpper v ≠ v then [strToUpper v] else []) ++
      (if v ≠ "" then ["", String.mk (v.data.take 1)] else []))
  setOrder (dedupFirst (values ++ extra))

/-- `_NUMERIC_EDGE_VALUES`. -/
def NUMERIC_EDGE_VALUES : List ℚ := [0, 1, -1, 1/2, -1/2, 999999, -999999, 1/1000]

/-- `_DATE_EDGE_VALUES` as days since 1960-01-01 (the timestamps
1960-01-01, 2000-01-01, 2025-12-31 and 1999-12-31). -/
def DATE_EDGE_DAYS : List Int := [0, 14610, 24106, 14609]

/-- `_CHAR_EDGE_VALUES`. -/
def CHAR_EDGE_VALUES : List String :=
  ["", " ", "A", "test", "NULL", "missing", String.mk (List.replicate 50 'X')]

/-- Python `int(f)` for a float: truncation toward zero. -/
def ratTruncInt (q : ℚ) : Int := q.num.tdiv (q.den : Int)

/-- The date-filling loop `while len(pool_dates) < num_rows`: one bounded
draw per missing entry, each a day offset from the 1960 epoch. -/
def dateFill : Rng → Nat → List Value × Rng
  | rng, 0 => ([], rng)
  | rng, k + 1 =>
    let d := rng.integers 0 25000
    let rest := dateFill d.2 k
    (Value.date (d.1 : Int) :: rest.1, rest.2)

/-- The NaN-injection loop: each sampled index is overwritten with the
missing value (`List.set` ignores out-of-range indices, as the guard
`idx < len(values)` does). -/
def setNaNs (vals : List Value) (idxs : List Nat) : List Value :=
  idxs.foldl (fun vs i => vs.set i Value.missing) vals

/-- Python `min` of a non-empty list (the empty case is unreachable behind
the `if condition_numerics:` guard). -/
def listMinQ : List ℚ → ℚ
  | [] => 0
  | x :: xs => xs.foldl min x

/-- Python `max` of a non-empty list. -/
def listMaxQ : List ℚ → ℚ
  | [] => 0
  | x :: xs => xs.foldl max x

/-- Embedding of `dataset_generator._generate_column_values`: character
columns draw from the condition strings (edge strings when none), date
columns take the edge dates plus truncated condition thresholds and fill
the remainder with bounded draws, numeric columns draw from the
condition-plus-edge pool or extend it with uniform draws, then overwrite
sampled indices with the missing value when more than five rows are
requested.  The final `values[:num_rows]` cut is applied in every
branch. -/
def generate_column_values (setOrder : List String → List String)
    (var : VariableRef) (num_rows : Nat) (rng : Rng) (conditions : List String) :
    List Value × Rng :=
  let condition_numerics := conditions.flatMap (fun c => extract_threshold_values c)
  let condition_strings := conditions.flatMap (fun c => extract_string_values setOrder c)
  if var.inferred_type = "character" then
    let pool := if condition_strings.isEmpty then CHAR_EDGE_VALUES else condition_strings
    let d := rng.choiceN (pool.map Value.str) num_rows
    (d.1.take num_rows, d.2)
  else if var.inferred_type = "date" then
    let base := DATE_EDGE_DAYS.map Value.date ++
      condition_numerics.map (fun n => Value.date (ratTruncInt n))
    let pool0 := base.take num_rows
    let fill := dateFill rng (num_rows - pool0.length)
    ((pool0 ++ fill.1).take num_rows, fill.2)
  else
    let seed_values := condition_numerics ++ NUMERIC_EDGE_VALUES
    let vr : List Value × Rng :=
      if num_rows ≤ seed_values.length then
        let d := rng.choiceN (seed_values.map Value.num) num_rows
        (d.1, d.2)
      else
        let lo := if ¬ condition_numerics.isEmpty then listMinQ condition_numerics - 10
          else -100
        let hi := if ¬ condition_numerics.isEmpty then listMaxQ condition_numerics + 10
          else 100
        let u := rng.uniformN lo hi (num_rows - seed_values.length)
        (seed_values.map Value.num ++ u.1.map Value.num, u.2)
    if 5 < num_rows then
      let s := vr.2.sampleIdx (List.range num_rows) (max 1 (num_rows / 10))
      ((setNaNs vr.1 s.1).take num_rows, s.2)
    else (vr.1.take num_rows, vr.2)

/-- Python `d[k]` on a polymorphic association-list dict (first entry with
the key; built dictionaries never repeat a key). -/
def lookupA {α : Type} : List (String × α) → String → Option α
  | [], _ => none
  | p :: ps, k => if p.1 = k then some p.2 else lookupA ps k

/-- Python `d[k] = v` on a polymorphic association-list dict: an existing
key keeps its position, a new key is appended. -/
def updateA {α : Type} (d : List (String × α)) (k : String) (v : α) :
    List (String × α) :=
  if (lookupA d k).isSome then d.map (fun p => if p.1 = k then (k, v) else p)
  else d ++ [(k, v)]

/-- The dictionary-building loop of `generate_seed_datasets`: for every
input dataset of every block (key lowercased), initialise both dicts on
first sight, extend the variable list with the block's variables and the
condition list with the block's non-empty point conditions. -/
def buildDicts (blocks : List SASBlock) :
    List (String × List VariableRef) × List (String × List String) :=
  blocks.foldl (fun acc block =>
    block.input_datasets.foldl (fun acc2 ds_name =>
      let key := strToLower ds_name
      let dv0 := if (lookupA acc2.1 key).isSome then acc2.1 else acc2.1 ++ [(key, [])]
      let dc0 := if (lookupA acc2.2 key).isSome then acc2.2 else acc2.2 ++ [(key, [])]
      let dv1 := updateA dv0 key ((lookupA dv0 key).getD [] ++ block.variables_)
      let newConds := block.coverage_points.filterMap
        (fun cp => if cp.condition = "" then none else some cp.condition)
      let dc1 := updateA dc0 key ((lookupA dc0 key).getD [] ++ newConds)
      (dv1, dc1)) acc) ([], [])

/-- The per-dataset variable deduplication: keyed by lowercased name, the
first occurrence wins unless it was of unknown type and a typed one
arrives (which then keeps the original position). -/
def dedupVars (vars_ : List VariableRef) : List VariableRef :=
  (vars_.foldl (fun (seen : List (String × VariableRef)) v =>
    let key := strToLower v.name
    match lookupA seen key with
    | none => seen ++ [(key, v)]
    | some w =>
      if w.inferred_type = "unknown" ∧ v.inferred_type ≠ "unknown" then updateA seen key v
      else seen) []).map Prod.snd

/-- The `var_conditions` build: for each condition, every variable whose
name occurs word-bounded (case-insensitively) in it collects the
condition under its lowercased name. -/
def varConds (conditions : List String) (unique_vars : List VariableRef) :
    List (String × List String) :=
  conditions.foldl (fun acc cond =>
    unique_vars.foldl (fun acc2 v =>
      if lineHasWord (strToLower v.name) cond.data then
        let key := strToLower v.name
        updateA acc2 key ((lookupA acc2 key).getD [] ++ [cond])
      else acc2) acc) []

/-- The column-building loop: one generated series per unique variable in
order, threading the generator, keyed by the variable's original name. -/
def genColumns (setOrder : List String → List String)
    (unique_vars : List VariableRef) (num_rows : Nat) (rng : Rng)
    (var_conditions : List (String × List String)) :
    List (String × List Value) × Rng :=
  unique_vars.foldl (fun acc v =>
    let v_conds := (lookupA var_conditions (strToLower v.name)).getD []
    let g := generate_column_values setOrder v num_rows acc.2 v_conds
    (updateA acc.1 v.name g.1, g.2)) ([], rng)

/-- `pd.DataFrame(columns)` from equal-length named series: columns in
insertion order, one row per index. -/
def dfOfColumns (columns : List (String × List Value)) (num_rows : Nat) : DataFrame :=
  { cols := columns.map Prod.fst
    rows := (List.range num_rows).map (fun i =>
      columns.map (fun c => c.2.getD i Value.missing)) }

/-- The f-string rendering `f"{[v.name for v in unique_vars]}"`: a Python
list literal of single-quoted names. -/
def pyStrListRepr (xs : List String) : String :=
  "[" ++ String.intercalate ", " (xs.map (fun s => "\x27" ++ s ++ "\x27")) ++ "]"

/-- Ambient interpreter state that `generate_seed_datasets` could in
principle observe but never reads (the numpy global generator, the
clock); the determinism theorem quantifies over it. -/
structure ProcessState where
  numpy_global_state : Nat := 0
  monotonic_clock : Nat := 0
deriving DecidableEq, Repr

/-- Embedding of `dataset_generator.generate_seed_datasets`: build the
per-dataset variable and condition dicts from the blocks (falling back to
a single `input` dataset from the global parse result), then generate
each dataset in dict order, threading one seeded generator through every
column of every dataset. -/
def generate_seed_datasets (setOrder : List String → List String)
    (ps : ProcessState) (parse_result : ParseResult) (num_rows : Nat)
    (seed : Nat) : List GeneratedDataset :=
  let rng := default_rng seed
  let built := buildDicts parse_result.blocks
  let dicts :=
    if built.1.isEmpty then
      (if parse_result.all_variables.isEmpty then ([], [])
       else ([("input", parse_result.all_variables)],
         [("input", parse_result.all_coverage_points.filterMap
           (fun cp => if cp.condition = "" then none else some cp.condition))]))
    else built
  (dicts.1.foldl (fun (acc : List GeneratedDataset × Rng) entry =>
    let unique_vars := dedupVars entry.2
    if unique_vars.isEmpty then
      (acc.1 ++ [{ name := entry.1, df := { cols := [], rows := [] }
                   generation_notes := ["No variables detected"] }], acc.2)
    else
      let conditions := (lookupA dicts.2 entry.1).getD []
      let vc := varConds conditions unique_vars
      let gc := genColumns setOrder unique_vars num_rows acc.2 vc
      (acc.1 ++ [{ name := entry.1
                   df := dfOfColumns gc.1 num_rows
                   generation_notes :=
                     ["Seed dataset with " ++ Nat.repr num_rows ++ " rows, " ++
                        Nat.repr unique_vars.length ++ " columns",
                      "Variables: " ++ pyStrListRepr (unique_vars.map (fun v => v.name)),
                      "Conditions analyzed: " ++ Nat.repr conditions.length] }], gc.2))
    ([], rng)).1

/-- A block whose `IF` condition compares a character variable with a
quoted literal (C9 counterexample input). -/
def c9cexBlk : SASBlock :=
  { block_type := .DATA_STEP, name := "d", start_line := 0, end_line := 2
    raw_text := []
    coverage_points := [{ point_id := "inline:1", point_type := .IF_TRUE
                          line_number := 1
                          description := "IF true: status = \"AB\""
                          condition := "status = \"AB\"" }]
    variables_ := [{ name := "status", inferred_type := "character" }]
    input_datasets := ["ds1"] }

/-- The C9 counterexample parse result. -/
def c9cexPr : ParseResult :=
  { file_path := "inline", blocks := [c9cexBlk] }

/-! # Properties

All definitions above are translated from the source; the theorems below
state and prove the claimed properties about them. -/

/-- C1: for every relational operator among `>`, `>=`, `<`, `<=`, `=`, `ne`
(and the aliases `gt`, `ge`, `lt`, `le`, `eq`) and every numeric threshold
`k`, `_value_to_satisfy op k` makes the comparison `v op k` true and
`_value_to_violate op k` makes it false; both helpers are total over these
operators. -/
theorem value_helpers_target_branches (op : String) (k : ℚ)
    (h : strToLower op ∈ relationalOps) :
    evalCmp op (value_to_satisfy op k) k = true ∧
    evalCmp op (value_to_violate op k) k = false := by
  simp only [relationalOps, List.mem_cons, List.not_mem_nil, or_false] at h
  rcases h with h | h | h | h | h | h | h | h | h | h | h <;>
    simp [evalCmp, value_to_satisfy, value_to_violate, h]

/-- Witness for C1 at the operator `>` and threshold `5`. -/
theorem value_helpers_target_branches_witness :
    strToLower ">" ∈ relationalOps ∧
    (evalCmp ">" (value_to_satisfy ">" 5) 5 = true ∧
     evalCmp ">" (value_to_violate ">" 5) 5 = false) :=
  ⟨by decide, value_helpers_target_branches ">" 5 (by decide)⟩

theorem parse_hit_eq_inter (log : String) (expected : List CoveragePoint) :
    (parse_coverage_from_log log expected).hit_point_ids =
      (expected.map (·.point_id)).toFinset ∩ (findMarkers log).toFinset := by
  ext x
  simp only [parse_coverage_from_log, List.mem_toFinset, List.mem_filter,
    decide_eq_true_eq, Finset.mem_inter]
  tauto

theorem parse_hit_points_card (log : String) (expected : List CoveragePoint) :
    (parse_coverage_from_log log expected).hit_points =
      (parse_coverage_from_log log expected).hit_point_ids.card := rfl

theorem parse_total_card (log : String) (expected : List CoveragePoint) :
    (parse_coverage_from_log log expected).total_points =
      (expected.map (·.point_id)).toFinset.card := rfl

theorem parse_pct_eq_ratio (log : String) (expected : List CoveragePoint) :
    (parse_coverage_from_log log expected).coverage_pct =
      ((parse_coverage_from_log log expected).hit_points : ℚ) /
        ((parse_coverage_from_log log expected).total_points : ℚ) * 100 := by
  by_cases h : (parse_coverage_from_log log expected).total_points = 0
  · have hsub : (parse_coverage_from_log log expected).hit_point_ids ⊆
        (expected.map (·.point_id)).toFinset := by
      rw [parse_hit_eq_inter]; exact Finset.inter_subset_left
    have hempty : (expected.map (·.point_id)).toFinset = ∅ :=
      Finset.card_eq_zero.mp (parse_total_card log expected ▸ h)
    have hhit : (parse_coverage_from_log log expected).hit_points = 0 := by
      rw [parse_hit_points_card, Finset.card_eq_zero, ← Finset.subset_empty, ← hempty]
      exact hsub
    simp [CoverageReport.coverage_pct, h, hhit]
  · simp [CoverageReport.coverage_pct, h]

/-- C2: `parse_coverage_from_log` computes the hit set as the intersection of
the expected ids with the marker ids in the log (duplicates counted once,
unknown markers ignored), the missed set as expected minus hit, the total as
the number of distinct expected ids, and the percentage as hit/total·100; on
the worked example, markers {1,2} out of expected {1,2,3,4,5} give 2 hits
out of 5, 40%, with 3, 4 and 5 missed. -/
theorem parse_coverage_from_log_spec :
    (∀ (log : String) (expected : List CoveragePoint),
      (parse_coverage_from_log log expected).hit_point_ids =
        (expected.map (·.point_id)).toFinset ∩ (findMarkers log).toFinset ∧
      (parse_coverage_from_log log expected).missed_point_ids =
        (expected.map (·.point_id)).toFinset \
          (parse_coverage_from_log log expected).hit_point_ids ∧
      (parse_coverage_from_log log expected).total_points =
        (expected.map (·.point_id)).toFinset.card ∧
      (parse_coverage_from_log log expected).coverage_pct =
        ((parse_coverage_from_log log expected).hit_points : ℚ) /
          ((parse_coverage_from_log log expected).total_points : ℚ) * 100) ∧
    ((parse_coverage_from_log c2Log c2Points).hit_points = 2 ∧
     (parse_coverage_from_log c2Log c2Points).total_points = 5 ∧
     (parse_coverage_from_log c2Log c2Points).coverage_pct = 40 ∧
     (parse_coverage_from_log c2Log c2Points).missed_point_ids = {"3", "4", "5"}) := by
  constructor
  · intro log expected
    exact ⟨parse_hit_eq_inter log expected, rfl, rfl, parse_pct_eq_ratio log expected⟩
  · refine ⟨by decide, by decide, ?_, by decide⟩
    have h2 : (parse_coverage_from_log c2Log c2Points).hit_points = 2 := by decide
    have h5 : (parse_coverage_from_log c2Log c2Points).total_points = 5 := by decide
    rw [CoverageReport.coverage_pct, h2, h5]
    norm_num

theorem hasKey_iff_mem_keys (d : List (String × CoveragePoint)) (k : String) :
    hasKey d k = true ↔ k ∈ d.map Prod.fst := by
  induction d with
  | nil => simp [hasKey]
  | cons p ps ih =>
    simp only [hasKey, Bool.or_eq_true_iff, beq_iff_eq, ih, List.map_cons, List.mem_cons]
    constructor
    · rintro (h | h)
      · exact Or.inl h.symm
      · exact Or.inr h
    · rintro (h | h)
      · exact Or.inl h.symm
      · exact Or.inr h

theorem alistLookup_map_replace_ne (d : List (String × CoveragePoint)) (k : String)
    (v : CoveragePoint) (k' : String) (h : k' ≠ k) :
    alistLookup (d.map (fun p => if p.1 = k then (k, v) else p)) k' = alistLookup d k' := by
  induction d with
  | nil => rfl
  | cons p ps ih =>
    by_cases hp : p.1 = k
    · simp [alistLookup, hp, Ne.symm h, ih]
    · simp only [List.map_cons, if_neg hp, alistLookup, ih]

theorem alistLookup_map_replace_eq (d : List (String × CoveragePoint)) (k : String)
    (v : CoveragePoint) (h : hasKey d k = true) :
    alistLookup (d.map (fun p => if p.1 = k then (k, v) else p)) k = some v := by
  induction d with
  | nil => simp [hasKey] at h
  | cons p ps ih =>
    by_cases hp : p.1 = k
    · simp [alistLookup, hp]
    · have h' : hasKey ps k = true := by
        simpa [hasKey, hp] using h
      simp [alistLookup, hp, ih h']

theorem alistLookup_none_of_not_hasKey (d : List (String × CoveragePoint)) (k : String)
    (h : hasKey d k = false) : alistLookup d k = none := by
  induction d with
  | nil => rfl
  | cons p ps ih =>
    simp only [hasKey, Bool.or_eq_false_iff, beq_eq_false_iff_ne, ne_eq] at h
    simp [alistLookup, h.1, ih h.2]

theorem alistLookup_append (d e : List (String × CoveragePoint)) (k : String) :
    alistLookup (d ++ e) k = orOpt (alistLookup d k) (alistLookup e k) := by
  induction d with
  | nil => simp [alistLookup, orOpt]
  | cons p ps ih =>
    by_cases hp : p.1 = k
    · simp [alistLookup, hp, orOpt]
    · simp [alistLookup, hp, ih]

theorem alistLookup_insert (d : List (String × CoveragePoint)) (k : String)
    (v : CoveragePoint) (k' : String) :
    alistLookup (alistInsert d k v) k' = if k' = k then some v else alistLookup d k' := by
  unfold alistInsert
  by_cases hc : hasKey d k
  · by_cases hk : k' = k
    · subst hk; simp [hc, alistLookup_map_replace_eq d k' v hc]
    · simp [hc, hk, alistLookup_map_replace_ne d k v k' hk]
  · by_cases hk : k' = k
    · subst hk
      simp [hc, alistLookup_append, alistLookup_none_of_not_hasKey d k' (by simpa using hc),
        alistLookup, orOpt]
    · have hkk : ¬ k = k' := fun h => hk h.symm
      simp only [hc, if_false, Bool.false_eq_true, alistLookup_append, if_neg hk]
      have h1 : alistLookup [(k, v)] k' = none := by simp [alistLookup, hkk]
      rw [h1]
      cases alistLookup d k' <;> rfl

theorem lastVal_foldl_init (e : List (String × CoveragePoint)) (k : String) :
    ∀ init : Option CoveragePoint,
      e.foldl (fun acc p => if p.1 = k then some p.2 else acc) init =
        orOpt (lastVal e k) init := by
  induction e with
  | nil => intro init; cases init <;> rfl
  | cons p ps ih =>
    intro init
    show ps.foldl _ (if p.1 = k then some p.2 else init) = _
    rw [ih]
    have h2 : lastVal (p :: ps) k =
        orOpt (lastVal ps k) (if p.1 = k then some p.2 else none) := by
      show ps.foldl _ (if p.1 = k then some p.2 else none) = _
      rw [ih]
    rw [h2]
    by_cases hp : p.1 = k <;> cases hl : lastVal ps k <;> simp [hp, hl, orOpt]

theorem alistLookup_dictUpdate (d e : List (String × CoveragePoint)) (k : String) :
    alistLookup (dictUpdate d e) k = orOpt (lastVal e k) (alistLookup d k) := by
  induction e generalizing d with
  | nil => cases h : alistLookup d k <;> simp [dictUpdate, lastVal, orOpt, h]
  | cons p ps ih =>
    show alistLookup (dictUpdate (alistInsert d p.1 p.2) ps) k = _
    rw [ih, alistLookup_insert]
    have h2 : lastVal (p :: ps) k =
        orOpt (lastVal ps k) (if p.1 = k then some p.2 else none) := by
      show ps.foldl _ (if p.1 = k then some p.2 else none) = _
      rw [lastVal_foldl_init]
    rw [h2]
    by_cases hk : k = p.1
    · subst hk
      cases hl : lastVal ps p.1 <;> simp [orOpt, hl]
    · have hp : ¬ p.1 = k := fun hq => hk hq.symm
      cases hl : lastVal ps k <;> simp [orOpt, hk, hp, hl]

theorem hasKey_insert_nodup (d : List (String × CoveragePoint)) (k : String)
    (v : CoveragePoint) (h : ((d.map Prod.fst)).Nodup) :
    ((alistInsert d k v).map Prod.fst).Nodup := by
  unfold alistInsert
  by_cases hc : hasKey d k
  · have : (d.map (fun p => if p.1 = k then (k, v) else p)).map Prod.fst = d.map Prod.fst := by
      rw [List.map_map]
      apply List.map_congr_left
      intro p _
      by_cases hp : p.1 = k <;> simp [hp]
    simp [hc, this, h]
  · have hnotin : k ∉ d.map Prod.fst := fun hk =>
      absurd ((hasKey_iff_mem_keys d k).mpr hk) (by simpa using hc)
    simp [hc, List.nodup_append, h, hnotin]

theorem dictUpdate_nodup (d e : List (String × CoveragePoint))
    (h : (d.map Prod.fst).Nodup) : ((dictUpdate d e).map Prod.fst).Nodup := by
  induction e generalizing d with
  | nil => exact h
  | cons p ps ih => exact ih _ (hasKey_insert_nodup d p.1 p.2 h)

theorem lastVal_eq_lookup_of_nodup (d : List (String × CoveragePoint)) (k : String)
    (h : (d.map Prod.fst).Nodup) : lastVal d k = alistLookup d k := by
  induction d with
  | nil => rfl
  | cons p ps ih =>
    have hps : (ps.map Prod.fst).Nodup := (List.nodup_cons.mp h).2
    have hne : p.1 ∉ ps.map Prod.fst := (List.nodup_cons.mp h).1
    by_cases hp : p.1 = k
    · subst hp
      have : lastVal ps p.1 = none := by
        rw [ih hps]
        apply alistLookup_none_of_not_hasKey
        cases hcv : hasKey ps p.1
        · rfl
        · exact absurd ((hasKey_iff_mem_keys ps p.1).mp hcv) hne
      show List.foldl _ (if p.1 = p.1 then some p.2 else none) ps = _
      rw [lastVal_foldl_init, this]
      simp [alistLookup, orOpt]
    · show List.foldl _ (if p.1 = k then some p.2 else none) ps = _
      rw [lastVal_foldl_init]
      simp only [if_neg hp]
      rw [ih hps]
      cases hl : alistLookup ps k <;> simp [alistLookup, orOpt, hp, hl]

theorem foldl_union_acc (f : CoverageReport → Finset String) (rs : List CoverageReport) :
    ∀ acc : Finset String,
      rs.foldl (fun a r => a ∪ f r) acc = acc ∪ rs.foldr (fun r a => f r ∪ a) ∅ := by
  induction rs with
  | nil => intro acc; simp
  | cons r rs' ih =>
    intro acc
    simp only [List.foldl_cons, List.foldr_cons, ih, Finset.union_assoc]

theorem orOpt_assoc (a b c : Option CoveragePoint) :
    orOpt a (orOpt b c) = orOpt (orOpt a b) c := by
  cases a <;> cases b <;> rfl

theorem orOpt_none_right (a : Option CoveragePoint) : orOpt a none = a := by
  cases a <;> rfl

theorem merge_hit_eq (rs : List CoverageReport) :
    (merge_coverage_reports rs).hit_point_ids = unionHits rs := by
  cases rs with
  | nil => rfl
  | cons r rs' =>
    have h : (merge_coverage_reports (r :: rs')).hit_point_ids =
        (r :: rs').foldl (fun acc t => acc ∪ t.hit_point_ids) ∅ := rfl
    rw [h, foldl_union_acc (fun t => t.hit_point_ids) (r :: rs') ∅, Finset.empty_union]
    rfl

theorem merge_missed_eq (rs : List CoverageReport) :
    (merge_coverage_reports rs).missed_point_ids = unionIds rs \ unionHits rs := by
  cases rs with
  | nil => simp [merge_coverage_reports, unionIds, unionHits]
  | cons r rs' =>
    have h : (merge_coverage_reports (r :: rs')).missed_point_ids =
        (r :: rs').foldl (fun acc t => acc ∪ (t.hit_point_ids ∪ t.missed_point_ids)) ∅ \
          (r :: rs').foldl (fun acc t => acc ∪ t.hit_point_ids) ∅ := rfl
    rw [h, foldl_union_acc (fun t => t.hit_point_ids ∪ t.missed_point_ids) (r :: rs') ∅,
      foldl_union_acc (fun t => t.hit_point_ids) (r :: rs') ∅,
      Finset.empty_union, Finset.empty_union]
    rfl

theorem merge_total_eq (rs : List CoverageReport) :
    (merge_coverage_reports rs).total_points = (unionIds rs).card := by
  cases rs with
  | nil => rfl
  | cons r rs' =>
    have h : (merge_coverage_reports (r :: rs')).total_points =
        ((r :: rs').foldl (fun acc t => acc ∪ (t.hit_point_ids ∪ t.missed_point_ids))
          (∅ : Finset String)).card := rfl
    rw [h, foldl_union_acc (fun t => t.hit_point_ids ∪ t.missed_point_ids) (r :: rs') ∅,
      Finset.empty_union]
    rfl

theorem merge_hit_points_eq (rs : List CoverageReport) :
    (merge_coverage_reports rs).hit_points = (unionHits rs).card := by
  cases rs with
  | nil => rfl
  | cons r rs' =>
    have h : (merge_coverage_reports (r :: rs')).hit_points =
        ((r :: rs').foldl (fun acc t => acc ∪ t.hit_point_ids) (∅ : Finset String)).card := rfl
    rw [h, foldl_union_acc (fun t => t.hit_point_ids) (r :: rs') ∅, Finset.empty_union]
    rfl

theorem merge_complete_eq (rs : List CoverageReport) :
    (merge_coverage_reports rs).is_complete = rs.any (·.is_complete) := by
  cases rs with
  | nil => rfl
  | cons r rs' => rfl

theorem merge_detail_lookup (rs : List CoverageReport) (k : String) :
    alistLookup (merge_coverage_reports rs).points_detail k =
      rs.foldr (fun r acc => orOpt acc (lastVal r.points_detail k)) none := by
  have main : ∀ (l : List CoverageReport) (d : List (String × CoveragePoint)),
      alistLookup (l.foldl (fun acc t => dictUpdate acc t.points_detail) d) k =
        orOpt (l.foldr (fun t acc => orOpt acc (lastVal t.points_detail k)) none)
          (alistLookup d k) := by
    intro l
    induction l with
    | nil => intro d; simp [orOpt]
    | cons q qs ih =>
      intro d
      show alistLookup (qs.foldl _ (dictUpdate d q.points_detail)) k = _
      rw [ih, alistLookup_dictUpdate, List.foldr_cons, orOpt_assoc]
  cases rs with
  | nil => rfl
  | cons r rs' =>
    have h : alistLookup (merge_coverage_reports (r :: rs')).points_detail k =
        alistLookup ((r :: rs').foldl (fun acc t => dictUpdate acc t.points_detail) []) k := rfl
    rw [h, main (r :: rs') []]
    show orOpt _ none = _
    rw [orOpt_none_right]

theorem unionHits_subset_unionIds (rs : List CoverageReport) : unionHits rs ⊆ unionIds rs := by
  induction rs with
  | nil => simp [unionHits, unionIds]
  | cons r rs' ih =>
    exact Finset.union_subset_union Finset.subset_union_left ih

theorem merge_universe_eq (rs : List CoverageReport) :
    (merge_coverage_reports rs).hit_point_ids ∪ (merge_coverage_reports rs).missed_point_ids =
      unionIds rs := by
  rw [merge_hit_eq, merge_missed_eq, Finset.union_sdiff_self_eq_union]
  exact Finset.union_eq_right.mpr (unionHits_subset_unionIds rs)

theorem orOpt_none_left (a : Option CoveragePoint) : orOpt none a = a := rfl

theorem merge_detail_keys_nodup (rs : List CoverageReport) :
    ((merge_coverage_reports rs).points_detail.map Prod.fst).Nodup := by
  cases rs with
  | nil => simp [merge_coverage_reports]
  | cons r rs' =>
    have main : ∀ (l : List CoverageReport) (d : List (String × CoveragePoint)),
        (d.map Prod.fst).Nodup →
        ((l.foldl (fun acc t => dictUpdate acc t.points_detail) d).map Prod.fst).Nodup := by
      intro l
      induction l with
      | nil => intro d hd; exact hd
      | cons q qs ih => intro d hd; exact ih _ (dictUpdate_nodup d q.points_detail hd)
    exact main (r :: rs') [] (by simp)

theorem lastVal_merge_detail (rs : List CoverageReport) (k : String) :
    lastVal (merge_coverage_reports rs).points_detail k =
      rs.foldr (fun r acc => orOpt acc (lastVal r.points_detail k)) none := by
  rw [lastVal_eq_lookup_of_nodup _ _ (merge_detail_keys_nodup rs), merge_detail_lookup]

theorem unionHits_pair (x y : CoverageReport) :
    unionHits [x, y] = x.hit_point_ids ∪ y.hit_point_ids := by
  simp [unionHits]

theorem unionIds_pair (x y : CoverageReport) :
    unionIds [x, y] = (x.hit_point_ids ∪ x.missed_point_ids) ∪
      (y.hit_point_ids ∪ y.missed_point_ids) := by
  simp [unionIds]

/-- C3 (amended): `merge_coverage_reports` is idempotent
(`merge [r] == merge [r, r]` under Python equality, the detail dict
included) and associative; it is commutative on every field except the
`points_detail` dict, which is right-biased (a later report's detail wins
on a shared id); the merged hit set is the union of the hit sets, the
merged id universe (hit plus missed) is the union of the inputs' hit and
missed ids, and `is_complete` is the OR of the inputs' flags. -/
theorem merge_reports_algebra :
    (∀ r : CoverageReport,
      (merge_coverage_reports [r]).pyEq (merge_coverage_reports [r, r])) ∧
    (∀ a b c : CoverageReport,
      (merge_coverage_reports [merge_coverage_reports [a, b], c]).pyEq
        (merge_coverage_reports [a, merge_coverage_reports [b, c]])) ∧
    (∀ a b : CoverageReport,
      (merge_coverage_reports [a, b]).total_points =
        (merge_coverage_reports [b, a]).total_points ∧
      (merge_coverage_reports [a, b]).hit_points =
        (merge_coverage_reports [b, a]).hit_points ∧
      (merge_coverage_reports [a, b]).hit_point_ids =
        (merge_coverage_reports [b, a]).hit_point_ids ∧
      (merge_coverage_reports [a, b]).missed_point_ids =
        (merge_coverage_reports [b, a]).missed_point_ids ∧
      (merge_coverage_reports [a, b]).is_complete =
        (merge_coverage_reports [b, a]).is_complete) ∧
    (∀ rs : List CoverageReport,
      (merge_coverage_reports rs).hit_point_ids = unionHits rs ∧
      (merge_coverage_reports rs).hit_point_ids ∪
        (merge_coverage_reports rs).missed_point_ids = unionIds rs ∧
      (merge_coverage_reports rs).is_complete = rs.any (·.is_complete)) := by
  refine ⟨?_, ?_, ?_, fun rs => ⟨merge_hit_eq rs, merge_universe_eq rs, merge_complete_eq rs⟩⟩
  · intro r
    have hI : unionIds [r, r] = unionIds [r] := by
      ext x
      simp only [unionIds, List.foldr_cons, List.foldr_nil, Finset.mem_union,
        Finset.not_mem_empty]
      tauto
    have hH : unionHits [r, r] = unionHits [r] := by
      ext x
      simp only [unionHits, List.foldr_cons, List.foldr_nil, Finset.mem_union,
        Finset.not_mem_empty]
      tauto
    refine ⟨?_, ?_, ?_, ?_, ?_, ?_⟩
    · rw [merge_total_eq, merge_total_eq, hI]
    · rw [merge_hit_points_eq, merge_hit_points_eq, hH]
    · rw [merge_hit_eq, merge_hit_eq, hH]
    · rw [merge_missed_eq, merge_missed_eq, hI, hH]
    · intro k
      rw [merge_detail_lookup, merge_detail_lookup]
      simp only [List.foldr_cons, List.foldr_nil, orOpt_none_left]
      cases lastVal r.points_detail k <;> rfl
    · rw [merge_complete_eq, merge_complete_eq]
      cases hc : r.is_complete <;> simp [hc]
  · intro a b c
    have hH : unionHits [merge_coverage_reports [a, b], c] =
        unionHits [a, merge_coverage_reports [b, c]] := by
      rw [unionHits_pair, unionHits_pair, merge_hit_eq, merge_hit_eq,
        unionHits_pair, unionHits_pair, Finset.union_assoc]
    have hI : unionIds [merge_coverage_reports [a, b], c] =
        unionIds [a, merge_coverage_reports [b, c]] := by
      rw [unionIds_pair, unionIds_pair, merge_universe_eq, merge_universe_eq,
        unionIds_pair, unionIds_pair, Finset.union_assoc]
    refine ⟨?_, ?_, ?_, ?_, ?_, ?_⟩
    · rw [merge_total_eq, merge_total_eq, hI]
    · rw [merge_hit_points_eq, merge_hit_points_eq, hH]
    · rw [merge_hit_eq, merge_hit_eq, hH]
    · rw [merge_missed_eq, merge_missed_eq, hI, hH]
    · intro k
      rw [merge_detail_lookup, merge_detail_lookup]
      simp only [List.foldr_cons, List.foldr_nil, orOpt_none_left,
        lastVal_merge_detail, orOpt_none_right]
      rw [orOpt_assoc]
    · simp only [merge_complete_eq, List.any_cons, List.any_nil]
      cases ha : a.is_complete <;> cases hb : b.is_complete <;> cases hc : c.is_complete <;>
        simp [ha, hb, hc]
  · intro a b
    have hH : unionHits [a, b] = unionHits [b, a] := by
      ext x
      simp only [unionHits, List.foldr_cons, List.foldr_nil, Finset.mem_union]
      tauto
    have hI : unionIds [a, b] = unionIds [b, a] := by
      ext x
      simp only [unionIds, List.foldr_cons, List.foldr_nil, Finset.mem_union]
      tauto
    refine ⟨?_, ?_, ?_, ?_, ?_⟩
    · rw [merge_total_eq, merge_total_eq, hI]
    · rw [merge_hit_points_eq, merge_hit_points_eq, hH]
    · rw [merge_hit_eq, merge_hit_eq, hH]
    · rw [merge_missed_eq, merge_missed_eq, hI, hH]
    · simp only [merge_complete_eq, List.any_cons, List.any_nil]
      cases ha : a.is_complete <;> cases hb : b.is_complete <;> simp [ha, hb]

/-- C3 counterexample: merging two reports whose `points_detail` maps
disagree on the shared id "a" is not commutative under Python equality —
`dict.update` lets the later report win, so the two merge orders give
different detail for "a". -/
theorem merge_commutativity_fails_on_detail :
    ¬ (merge_coverage_reports [mergeCexR1, mergeCexR2]).pyEq
        (merge_coverage_reports [mergeCexR2, mergeCexR1]) := by
  intro h
  have hd := h.2.2.2.2.1 "a"
  revert hd
  decide

/-- C10: `coverage_pct` is total and guards the zero denominator — every
report with `total_points = 0` (for example one parsed from an empty
expected-point list, or the merge of no reports) has percentage `0.0`. -/
theorem coverage_pct_zero_total_safe :
    (∀ r : CoverageReport, r.total_points = 0 → r.coverage_pct = 0) ∧
    (∀ log : String, (parse_coverage_from_log log []).coverage_pct = 0) ∧
    (merge_coverage_reports []).coverage_pct = 0 := by
  refine ⟨fun r h => by simp [CoverageReport.coverage_pct, h], fun log => ?_, by decide⟩
  have h : (parse_coverage_from_log log []).total_points = 0 := rfl
  simp [CoverageReport.coverage_pct, h]

/-- Witness for C10 at the default (all-zero) report. -/
theorem coverage_pct_zero_total_safe_witness :
    ({} : CoverageReport).total_points = 0 ∧ ({} : CoverageReport).coverage_pct = 0 :=
  ⟨rfl, coverage_pct_zero_total_safe.1 {} rfl⟩

/-- C8 (amended): the serialized report contains exactly the fields
`total_points`, `hit_points`, `coverage_pct` (rounded to 2 decimals),
`is_complete`, `hit_point_ids` (sorted), `missed_point_ids` (sorted) and
`missed_details`, whose entries each have exactly the fields `point_id`,
`type` (not `kind`), `line`, `description` and `condition`. -/
theorem to_dict_fields (r : CoverageReport) :
    ((CoverageReport.to_dict r).map Prod.fst =
      ["total_points", "hit_points", "coverage_pct", "is_complete",
       "hit_point_ids", "missed_point_ids", "missed_details"]) ∧
    (jsonLookup (CoverageReport.to_dict r) "coverage_pct" =
      some (Json.num (round2 r.coverage_pct))) ∧
    (∃ hl : List String,
      jsonLookup (CoverageReport.to_dict r) "hit_point_ids" =
        some (Json.arr (hl.map Json.str)) ∧
      hl.Sorted (· ≤ ·) ∧ hl.toFinset = r.hit_point_ids) ∧
    (∃ ml : List String,
      jsonLookup (CoverageReport.to_dict r) "missed_point_ids" =
        some (Json.arr (ml.map Json.str)) ∧
      ml.Sorted (· ≤ ·) ∧ ml.toFinset = r.missed_point_ids) ∧
    (∃ ds : List Json,
      jsonLookup (CoverageReport.to_dict r) "missed_details" = some (Json.arr ds) ∧
      ∀ j ∈ ds, Json.objKeys j =
        ["point_id", "type", "line", "description", "condition"]) := by
  refine ⟨rfl, by simp [CoverageReport.to_dict, jsonLookup],
    ⟨r.hit_point_ids.sort (· ≤ ·), by simp [CoverageReport.to_dict, jsonLookup],
      Finset.sort_sorted _ _, Finset.sort_toFinset _ _⟩,
    ⟨r.missed_point_ids.sort (· ≤ ·), by simp [CoverageReport.to_dict, jsonLookup],
      Finset.sort_sorted _ _, Finset.sort_toFinset _ _⟩,
    ⟨r.missed_points.map (fun cp =>
        Json.obj [("point_id", Json.str cp.point_id),
                  ("type", Json.str cp.point_type.name),
                  ("line", Json.num cp.line_number),
                  ("description", Json.str cp.description),
                  ("condition", Json.str cp.condition)]),
      by simp [CoverageReport.to_dict, jsonLookup], ?_⟩⟩
  intro j hj
  rcases List.mem_map.mp hj with ⟨cp, _, hcp⟩
  rw [← hcp]
  rfl

/-- C8 counterexample: on a concrete report the `missed_details` array is
non-empty and none of its entries has a field named `kind` — the Python
code serializes the point type under the key `type`. -/
theorem to_dict_no_kind_field :
    ∃ ds : List Json,
      jsonLookup (CoverageReport.to_dict toDictCexReport) "missed_details" =
        some (Json.arr ds) ∧
      ds ≠ [] ∧ ∀ j ∈ ds, "kind" ∉ Json.objKeys j := by
  have hmp : toDictCexReport.missed_points =
      [⟨"m", .IF_TRUE, 3, "IF true: x > 1", "x > 1"⟩] := by
    simp [CoverageReport.missed_points, toDictCexReport, Finset.sort_singleton, alistLookup]
  refine ⟨[Json.obj [("point_id", Json.str "m"), ("type", Json.str "IF_TRUE"),
    ("line", Json.num 3), ("description", Json.str "IF true: x > 1"),
    ("condition", Json.str "x > 1")]], ?_, by simp, ?_⟩
  · simp [CoverageReport.to_dict, jsonLookup, hmp, CoveragePointType.name]
  · intro j hj
    rw [List.mem_singleton.mp hj]
    simp [Json.objKeys]

/-- C5 (code bug): `_strip_comments` deletes a line on `c5Input` — the
line-comment regex `(?m)^\s*\*[^;]*;` matches across the newline (both
`\s*` and `[^;]*` match `\n`) and the replacement `" " * len` overwrites
the newline with a space, so a 4-line input comes back with 3 lines,
contradicting the function's own doc ("preserving line numbers") and the
spec.  The first conjunct pins the exact output. -/
theorem strip_comments_drops_a_line :
    strip_comments c5Input = "x;\n      \ny;" ∧
    countNewlines c5Input = 3 ∧ countNewlines (strip_comments c5Input) = 2 := by
  refine ⟨?_, by decide, by decide⟩
  decide

/-! ### Lemmas on line splitting, joining, sorting and insertion -/

theorem splitLinesAux_clean (text : List Char) :
    ∀ acc, (∀ c ∈ acc, c ≠ '\n') →
      ∀ l ∈ splitLinesAux text acc, ∀ c ∈ l, c ≠ '\n' := by
  induction text with
  | nil =>
    intro acc hacc l hl c hc
    simp only [splitLinesAux, List.mem_singleton] at hl
    subst hl
    exact hacc c (List.mem_reverse.mp hc)
  | cons x xs ih =>
    intro acc hacc l hl c hc
    by_cases hx : x = '\n'
    · subst hx
      simp only [splitLinesAux, List.mem_cons] at hl
      rcases hl with hl | hl
      · subst hl; exact hacc c (List.mem_reverse.mp hc)
      · exact ih [] (by simp) l hl c hc
    · rw [show splitLinesAux (x :: xs) acc = splitLinesAux xs (x :: acc) from by
        cases x <;> simp_all [splitLinesAux]] at hl
      refine ih (x :: acc) ?_ l hl c hc
      intro d hd
      rcases List.mem_cons.mp hd with h | h
      · subst h; exact hx
      · exact hacc d h

theorem splitLines_clean (text : List Char) :
    ∀ l ∈ splitLines text, ∀ c ∈ l, c ≠ '\n' :=
  splitLinesAux_clean text [] (by simp)

theorem splitLinesAux_no_newline (x : List Char) (hx : ∀ c ∈ x, c ≠ '\n') :
    ∀ acc, splitLinesAux x acc = [acc.reverse ++ x] := by
  induction x with
  | nil => intro acc; simp [splitLinesAux]
  | cons c cs ih =>
    intro acc
    have hc : c ≠ '\n' := hx c (List.mem_cons_self c cs)
    rw [show splitLinesAux (c :: cs) acc = splitLinesAux cs (c :: acc) from by
      cases c <;> simp_all [splitLinesAux]]
    rw [ih (fun d hd => hx d (List.mem_cons_of_mem c hd)) (c :: acc)]
    simp

theorem splitLines_no_newline (x : List Char) (hx : ∀ c ∈ x, c ≠ '\n') :
    splitLines x = [x] := by
  rw [splitLines, splitLinesAux_no_newline x hx []]
  rfl

theorem splitLinesAux_append_newline (J : List Char) :
    ∀ (w acc : List Char),
      splitLinesAux (w ++ '\n' :: J) acc = splitLinesAux w acc ++ splitLinesAux J [] := by
  intro w
  induction w with
  | nil => intro acc; simp [splitLinesAux]
  | cons c cs ih =>
    intro acc
    by_cases hc : c = '\n'
    · subst hc
      show splitLinesAux ('\n' :: (cs ++ '\n' :: J)) acc = _
      rw [show splitLinesAux ('\n' :: (cs ++ '\n' :: J)) acc =
        acc.reverse :: splitLinesAux (cs ++ '\n' :: J) [] from rfl, ih []]
      rfl
    · rw [show ((c :: cs) ++ '\n' :: J) = c :: (cs ++ '\n' :: J) from rfl,
        show splitLinesAux (c :: (cs ++ '\n' :: J)) acc =
          splitLinesAux (cs ++ '\n' :: J) (c :: acc) from by
            cases c <;> simp_all [splitLinesAux],
        show splitLinesAux (c :: cs) acc = splitLinesAux cs (c :: acc) from by
          cases c <;> simp_all [splitLinesAux],
        ih (c :: acc)]

theorem splitLines_joinLines (ls : List (List Char)) (h : ls ≠ []) :
    splitLines (joinLines ls) = ls.flatMap (fun l => splitLines l) := by
  induction ls with
  | nil => exact absurd rfl h
  | cons l ls' ih =>
    cases ls' with
    | nil => simp [joinLines, List.flatMap]
    | cons m ms =>
      show splitLines (l ++ '\n' :: joinLines (m :: ms)) = _
      rw [splitLines, splitLinesAux_append_newline (joinLines (m :: ms)) l []]
      rw [show splitLinesAux (joinLines (m :: ms)) [] = splitLines (joinLines (m :: ms)) from rfl,
        ih (by simp)]
      simp [splitLines, List.flatMap]

theorem sublist_insertIdx (a : List Char) : ∀ (n : Nat) (l : List (List Char)),
    List.Sublist l (l.insertIdx n a) := by
  intro n
  induction n with
  | zero => intro l; rw [List.insertIdx_zero]; exact List.sublist_cons_self a l
  | succ n ih =>
    intro l
    cases l with
    | nil => simp
    | cons x xs =>
      rw [List.insertIdx_succ_cons]
      exact List.Sublist.cons₂ x (ih xs)

theorem applyInsertions_sublist (ins : List (Nat × List Char)) :
    ∀ lines, List.Sublist lines (applyInsertions lines ins) := by
  induction ins with
  | nil => intro lines; exact List.Sublist.refl lines
  | cons p ps ih =>
    intro lines
    exact List.Sublist.trans (sublist_insertIdx p.2 (min p.1 lines.length) lines) (ih _)

theorem applyInsertions_mem_keep (ins : List (Nat × List Char)) :
    ∀ lines x, x ∈ lines → x ∈ applyInsertions lines ins := by
  intro lines x hx
  exact (applyInsertions_sublist ins lines).mem hx

theorem applyInsertions_mem_inserted (ins : List (Nat × List Char)) :
    ∀ lines p, p ∈ ins → p.2 ∈ applyInsertions lines ins := by
  induction ins with
  | nil => intro lines p hp; simp at hp
  | cons q qs ih =>
    intro lines p hp
    rcases List.mem_cons.mp hp with h | h
    · subst h
      apply applyInsertions_mem_keep qs
      exact (List.mem_insertIdx (Nat.min_le_right p.1 lines.length)).mpr (Or.inl rfl)
    · exact ih _ p h

theorem applyInsertions_length (ins : List (Nat × List Char)) :
    ∀ lines, (applyInsertions lines ins).length = lines.length + ins.length := by
  induction ins with
  | nil => intro lines; rfl
  | cons p ps ih =>
    intro lines
    show (applyInsertions (lines.insertIdx (min p.1 lines.length) p.2) ps).length = _
    rw [ih, List.length_insertIdx _ _ (Nat.min_le_right p.1 lines.length), List.length_cons]
    omega

theorem mem_insertDesc (x y : Nat × List Char) : ∀ l, (y ∈ insertDesc x l ↔ y = x ∨ y ∈ l) := by
  intro l
  induction l with
  | nil => simp [insertDesc]
  | cons z zs ih =>
    by_cases hz : z.1 < x.1
    · simp only [insertDesc, if_pos hz, List.mem_cons]
    · simp only [insertDesc, if_neg hz, List.mem_cons, ih]
      tauto

theorem mem_sortInsertionsDesc (l : List (Nat × List Char)) (p : Nat × List Char) :
    p ∈ sortInsertionsDesc l ↔ p ∈ l := by
  have main : ∀ (l : List (Nat × List Char)) (acc : List (Nat × List Char)),
      p ∈ l.foldl (fun acc x => insertDesc x acc) acc ↔ p ∈ acc ∨ p ∈ l := by
    intro l
    induction l with
    | nil => intro acc; simp
    | cons x xs ih =>
      intro acc
      rw [List.foldl_cons, ih]
      simp only [mem_insertDesc, List.mem_cons]
      tauto
  rw [sortInsertionsDesc, main l []]
  simp

theorem length_insertDesc (x : Nat × List Char) :
    ∀ l, (insertDesc x l).length = l.length + 1 := by
  intro l
  induction l with
  | nil => rfl
  | cons z zs ih =>
    by_cases hz : z.1 < x.1 <;> simp [insertDesc, hz, ih]

theorem length_sortInsertionsDesc (l : List (Nat × List Char)) :
    (sortInsertionsDesc l).length = l.length := by
  have main : ∀ (l acc : List (Nat × List Char)),
      (l.foldl (fun acc x => insertDesc x acc) acc).length = acc.length + l.length := by
    intro l
    induction l with
    | nil => intro acc; rfl
    | cons x xs ih =>
      intro acc
      rw [List.foldl_cons, ih, length_insertDesc, List.length_cons]
      omega
  rw [sortInsertionsDesc, main l []]
  simp

theorem sublist_flatMap (f : List Char → List (List Char)) :
    ∀ s t : List (List Char), List.Sublist s t → List.Sublist (s.flatMap f) (t.flatMap f) := by
  intro s t h
  induction h with
  | slnil => exact List.Sublist.refl _
  | cons a _ ih =>
    exact List.Sublist.trans ih (List.sublist_append_right (f a) _)
  | cons₂ a _ ih =>
    exact List.Sublist.append_left ih (f a)

/-! ### Extraction lemmas: the IF points pair up (C4) -/

theorem whenPointsAux_types (code : List Char) (s : Nat) (fid : String) :
    ∀ (ws : List (Nat × List Char)) (c : Nat) (cp : CoveragePoint),
      cp ∈ (whenPointsAux code s fid c ws).1 →
      cp.point_type = CoveragePointType.SELECT_WHEN := by
  intro ws
  induction ws with
  | nil => intro c cp h; simp [whenPointsAux] at h
  | cons w rest ih =>
    intro c cp h
    obtain ⟨wst, wc⟩ := w
    simp only [whenPointsAux] at h
    rcases List.mem_cons.mp h with h1 | h1
    · subst h1; rfl
    · exact ih (c + 1) cp h1

theorem selectPointsAux_types (code : List Char) (mstart : Nat) (fid : String) :
    ∀ (sels : List SelectMatch) (c : Nat) (cp : CoveragePoint),
      cp ∈ (selectPointsAux code mstart fid c sels).1 →
      cp.point_type = CoveragePointType.SELECT_WHEN ∨
      cp.point_type = CoveragePointType.SELECT_OTHERWISE := by
  intro sels
  induction sels with
  | nil => intro c cp h; simp [selectPointsAux] at h
  | cons sel rest ih =>
    intro c cp h
    rcases hsel : sel.otherwiseStart with _ | ow
    · simp only [selectPointsAux, hsel, List.mem_append, List.not_mem_nil, or_false,
        false_or, List.append_nil] at h
      rcases h with h1 | h1
      · exact Or.inl (whenPointsAux_types code (mstart + sel.start) fid sel.whens c cp h1)
      · exact ih _ cp h1
    · simp only [selectPointsAux, hsel, List.mem_append] at h
      rcases h with (h1 | h1) | h1
      · exact Or.inl (whenPointsAux_types code (mstart + sel.start) fid sel.whens c cp h1)
      · rw [List.mem_singleton] at h1
        subst h1
        exact Or.inr rfl
      · exact ih _ cp h1

theorem ifPointsAux_filter_true (code : List Char) (mstart : Nat) (fid : String) :
    ∀ (ifms : List IfMatch) (c : Nat),
      (((ifPointsAux code mstart fid c ifms).1.filter
          (fun cp => decide (cp.point_type = CoveragePointType.IF_TRUE))).map
        (fun cp => cp.condition)) =
      ifms.map (fun ifm => String.mk ifm.condition) := by
  intro ifms
  induction ifms with
  | nil => intro c; rfl
  | cons ifm rest ih =>
    intro c
    simp only [ifPointsAux, List.filter_cons]
    simp [ih (c + 2)]

theorem ifPointsAux_filter_false (code : List Char) (mstart : Nat) (fid : String) :
    ∀ (ifms : List IfMatch) (c : Nat),
      (((ifPointsAux code mstart fid c ifms).1.filter
          (fun cp => decide (cp.point_type = CoveragePointType.IF_FALSE))).map
        (fun cp => cp.condition)) =
      ifms.map (fun ifm => String.mk ifm.condition) := by
  intro ifms
  induction ifms with
  | nil => intro c; rfl
  | cons ifm rest ih =>
    intro c
    simp only [ifPointsAux, List.filter_cons]
    simp [ih (c + 2)]

theorem parse_if_filters (m : DataStepMatch) (code : List Char) (counter : Nat)
    (fileId : String) (ty : CoveragePointType)
    (hty : ty = CoveragePointType.IF_TRUE ∨ ty = CoveragePointType.IF_FALSE) :
    (((parse_data_step m code counter fileId).1.coverage_points.filter
        (fun cp => decide (cp.point_type = ty))).map (fun cp => cp.condition)) =
      (findIfMatches m.body).map (fun ifm => String.mk ifm.condition) := by
  have hsel : ((selectPointsAux code m.start fileId
      (ifPointsAux code m.start fileId (counter + 1) (findIfMatches m.body)).2
      (findSelects m.body)).1.filter (fun cp => decide (cp.point_type = ty))) = [] := by
    rw [List.filter_eq_nil_iff]
    intro cp hcp
    rcases selectPointsAux_types code m.start fileId (findSelects m.body) _ cp hcp with h | h <;>
      rcases hty with rfl | rfl <;> simp [h]
  show ((((⟨mkPid fileId (counter + 1), CoveragePointType.STEP_ENTRY, _, _, _⟩ : CoveragePoint) ::
      ((ifPointsAux code m.start fileId (counter + 1) (findIfMatches m.body)).1 ++
        (selectPointsAux code m.start fileId _ (findSelects m.body)).1)).filter
        (fun cp => decide (cp.point_type = ty))).map (fun cp => cp.condition)) = _
  rw [List.filter_cons]
  have hentry : (decide ((CoveragePointType.STEP_ENTRY : CoveragePointType) = ty)) = false := by
    rcases hty with rfl | rfl <;> decide
  simp only [hentry, cond_false, List.filter_append, hsel, List.append_nil]
  rcases hty with rfl | rfl
  · exact ifPointsAux_filter_true code m.start fileId (findIfMatches m.body) (counter + 1)
  · exact ifPointsAux_filter_false code m.start fileId (findIfMatches m.body) (counter + 1)

theorem splitLinesAux_ne_nil (text : List Char) : ∀ acc, splitLinesAux text acc ≠ [] := by
  induction text with
  | nil => intro acc; simp [splitLinesAux]
  | cons c cs ih =>
    intro acc
    by_cases hc : c = '\n'
    · subst hc; simp [splitLinesAux]
    · rw [show splitLinesAux (c :: cs) acc = splitLinesAux cs (c :: acc) from by
        cases c <;> simp_all [splitLinesAux]]
      exact ih (c :: acc)

theorem make_put_chars (pid : String) :
    make_put_statement pid =
      ("put \"COV:POINT=".data ++ pid.data) ++ "\";".data := by
  simp [make_put_statement]

/-- C4 (amended): extraction emits exactly one `IF_TRUE` and one `IF_FALSE`
point per `IF ... THEN` construct found in a DATA step, in matching order
and sharing the same condition text, whether or not an `ELSE` exists (the
condition lists of the two filtered point sequences both equal the matched
condition list); and when no `ELSE` occurs within the 10-line search window
below the point's recorded line while the `THEN` occurs within the 15-line
window (the bounded searches of the instrumenter) with its statement
terminated by a semicolon, the instrumented text contains a synthesized
`else` line emitting the `IF_FALSE` marker. -/
theorem if_pairs_and_synthesized_else :
    (∀ (m : DataStepMatch) (code : List Char) (counter : Nat) (fileId : String),
      (((parse_data_step m code counter fileId).1.coverage_points.filter
          (fun cp => decide (cp.point_type = CoveragePointType.IF_TRUE))).map
        (fun cp => cp.condition)) =
        (findIfMatches m.body).map (fun ifm => String.mk ifm.condition) ∧
      (((parse_data_step m code counter fileId).1.coverage_points.filter
          (fun cp => decide (cp.point_type = CoveragePointType.IF_FALSE))).map
        (fun cp => cp.condition)) =
        (findIfMatches m.body).map (fun ifm => String.mk ifm.condition)) ∧
    (∀ (block : SASBlock) (raw_code : List Char) (cp : CoveragePoint)
        (lines : List (List Char)) (t i j : Nat),
      lines = splitLines raw_code →
      t = targetLine cp.line_number block.start_line lines.length →
      cp ∈ block.coverage_points →
      cp.point_type = CoveragePointType.IF_FALSE →
      (∀ c ∈ cp.point_id.data, c ≠ '\n') →
      searchFrom (lineHasWord "else") lines (min (t + 10) lines.length - t) t = none →
      searchFrom (lineHasWord "then") lines (min (t + 15) lines.length - t) t = some i →
      lineHasKwPair "then" "do" (lineAt lines i) = false →
      searchFrom lineHasSemi lines (lines.length - i) i = some j →
      ("  else ".data ++ make_put_statement cp.point_id) ∈
        splitLines (instrument_data_step block raw_code)) := by
  constructor
  · intro m code counter fileId
    exact ⟨parse_if_filters m code counter fileId _ (Or.inl rfl),
      parse_if_filters m code counter fileId _ (Or.inr rfl)⟩
  · intro block raw_code cp lines t i j hlines ht hcp htype hid hnoelse hthen hnotdo hsemi
    subst hlines
    subst ht
    have hins : insertionsFor (splitLines raw_code) block.start_line cp =
        [(j + 1, "  else ".data ++ make_put_statement cp.point_id)] := by
      simp only [insertionsFor, htype, hnoelse, hthen, hnotdo, hsemi, Bool.false_eq_true,
        if_false]
    have hmem1 : ((j + 1 : Nat), "  else ".data ++ make_put_statement cp.point_id) ∈
        block.coverage_points.flatMap
          (insertionsFor (splitLines raw_code) block.start_line) :=
      List.mem_flatMap.mpr ⟨cp, hcp, by rw [hins]; exact List.mem_singleton_self _⟩
    have hmem2 := (mem_sortInsertionsDesc _ _).mpr hmem1
    have hmem3 := applyInsertions_mem_inserted _ (splitLines raw_code) _ hmem2
    have hclean : ∀ c ∈ ("  else ".data ++ make_put_statement cp.point_id), c ≠ '\n' := by
      have h7 : ∀ c ∈ "  else ".data, c ≠ '\n' := by decide
      have h8 : ∀ c ∈ "put \"COV:POINT=".data, c ≠ '\n' := by decide
      have h9 : ∀ c ∈ "\";".data, c ≠ '\n' := by decide
      intro c hc
      rcases List.mem_append.mp hc with h | h
      · exact h7 c h
      · rw [make_put_chars] at h
        rcases List.mem_append.mp h with h | h
        · rcases List.mem_append.mp h with h | h
          · exact h8 c h
          · exact hid c h
        · exact h9 c h
    have hne : applyInsertions (splitLines raw_code)
        (sortInsertionsDesc (block.coverage_points.flatMap
          (insertionsFor (splitLines raw_code) block.start_line))) ≠ [] := by
      intro hempty
      have hlen := applyInsertions_length
        (sortInsertionsDesc (block.coverage_points.flatMap
          (insertionsFor (splitLines raw_code) block.start_line))) (splitLines raw_code)
      rw [hempty] at hlen
      simp only [List.length_nil] at hlen
      have h0 : (splitLines raw_code).length = 0 := by omega
      exact splitLinesAux_ne_nil raw_code [] (List.length_eq_zero.mp h0)
    show _ ∈ splitLines (joinLines (applyInsertions (splitLines raw_code)
      (sortInsertionsDesc (block.coverage_points.flatMap
        (insertionsFor (splitLines raw_code) block.start_line)))))
    rw [splitLines_joinLines _ hne]
    exact List.mem_flatMap.mpr ⟨_, hmem3, by
      rw [splitLines_no_newline _ hclean]; exact List.mem_singleton_self _⟩

/-- C4 counterexample: on `c4cexCode` the extractor emits an `IF_FALSE`
point for the `ELSE`-less `IF` (the pairing holds), but the instrumented
text contains no `else` at all, in any letter case — the synthesized
branch the claim promises is missing because the `THEN` lies outside the
bounded search window. -/
theorem synthesized_else_missing :
    ((parse_data_step c4cexMatch c4cexCode.data 0 "inline").1.coverage_points.filter
        (fun cp => decide (cp.point_type = CoveragePointType.IF_FALSE))).length = 1 ∧
    containsSeq "else".data
      ((instrument_data_step (parse_data_step c4cexMatch c4cexCode.data 0 "inline").1
        c4cexCode.data).map Char.toLower) = false := by
  constructor
  · decide
  · decide

/-- Every line of the instrumented line list is an original line or the
text of one of the applied insertions. -/
theorem applyInsertions_mem_src (ins : List (Nat × List Char)) :
    ∀ lines x, x ∈ applyInsertions lines ins → x ∈ lines ∨ ∃ p ∈ ins, x = p.2 := by
  induction ins with
  | nil => intro lines x hx; exact Or.inl hx
  | cons q qs ih =>
    intro lines x hx
    rcases ih _ x hx with h | ⟨p, hp, rfl⟩
    · rcases (List.mem_insertIdx (Nat.min_le_right q.1 lines.length)).mp h with h1 | h1
      · exact Or.inr ⟨q, List.mem_cons_self q qs, h1⟩
      · exact Or.inl h1
    · exact Or.inr ⟨p, List.mem_cons_of_mem q hp, rfl⟩

theorem insertionsFor_le_one (lines : List (List Char)) (s : Nat) (cp : CoveragePoint) :
    (insertionsFor lines s cp).length ≤ 1 := by
  rcases cp with ⟨pid, ty, ln, de, co⟩
  cases ty <;> simp only [insertionsFor] <;> (repeat' split) <;>
    first
      | exact Nat.zero_le _
      | exact Nat.le_refl _

theorem insertionsFor_shape (lines : List (List Char)) (s : Nat) (cp : CoveragePoint) :
    ∀ p ∈ insertionsFor lines s cp,
      ∃ pre : List Char, p.2 = pre ++ make_put_statement cp.point_id ∧
        ∀ c ∈ pre, c ≠ '\n' := by
  rcases cp with ⟨pid, ty, ln, de, co⟩
  intro p hp
  cases ty <;> simp only [insertionsFor] at hp <;> (repeat' split at hp) <;>
    first
      | (rw [List.mem_singleton] at hp; subst hp; exact ⟨_, rfl, by decide⟩)
      | simp at hp

theorem flatMap_insertions_le (lines : List (List Char)) (s : Nat) :
    ∀ pts : List CoveragePoint,
      (pts.flatMap (insertionsFor lines s)).length ≤ pts.length := by
  intro pts
  induction pts with
  | nil => simp
  | cons cp rest ih =>
    rw [List.flatMap_cons, List.length_append, List.length_cons]
    have := insertionsFor_le_one lines s cp
    omega

theorem make_put_clean (pid : String) (h : ∀ c ∈ pid.data, c ≠ '\n') :
    ∀ c ∈ make_put_statement pid, c ≠ '\n' := by
  have h8 : ∀ c ∈ "put \"COV:POINT=".data, c ≠ '\n' := by decide
  have h9 : ∀ c ∈ "\";".data, c ≠ '\n' := by decide
  intro c hc
  rw [make_put_chars] at hc
  rcases List.mem_append.mp hc with hc | hc
  · rcases List.mem_append.mp hc with hc | hc
    · exact h8 c hc
    · exact h c hc
  · exact h9 c hc

theorem flatMap_split_id (l : List (List Char)) (h : ∀ x ∈ l, splitLines x = [x]) :
    l.flatMap (fun x => splitLines x) = l := by
  induction l with
  | nil => rfl
  | cons x xs ih =>
    rw [List.flatMap_cons, h x (List.mem_cons_self x xs),
      ih (fun y hy => h y (List.mem_cons_of_mem x hy))]
    rfl

theorem instrument_final_ne_nil (block : SASBlock) (raw_code : List Char) :
    applyInsertions (splitLines raw_code)
      (sortInsertionsDesc (block.coverage_points.flatMap
        (insertionsFor (splitLines raw_code) block.start_line))) ≠ [] := by
  intro hempty
  have hlen := applyInsertions_length
    (sortInsertionsDesc (block.coverage_points.flatMap
      (insertionsFor (splitLines raw_code) block.start_line))) (splitLines raw_code)
  rw [hempty] at hlen
  simp only [List.length_nil] at hlen
  have h0 : (splitLines raw_code).length = 0 := by omega
  exact splitLinesAux_ne_nil raw_code [] (List.length_eq_zero.mp h0)

/-- C6 (amended): instrumenting a parsed DATA-step block preserves every
original line verbatim and in its original relative order (the original
lines form a sublist of the instrumented lines); each coverage point
contributes at most one insertion, every inserted line is a
marker-emission statement for one of the block's points, and (for
newline-free point ids) the instrumented text has exactly one line per
computed insertion on top of the original lines — so the number of
emitted markers equals the number of points exactly when every point's
bounded keyword search succeeds, and is smaller otherwise. -/
theorem instrument_preserves_lines_and_markers :
    (∀ (block : SASBlock) (raw_code : List Char),
      List.Sublist (splitLines raw_code)
        (splitLines (instrument_data_step block raw_code))) ∧
    (∀ (block : SASBlock) (raw_code : List Char),
      (block.coverage_points.flatMap
        (insertionsFor (splitLines raw_code) block.start_line)).length ≤
        block.coverage_points.length) ∧
    (∀ (block : SASBlock) (raw_code : List Char) (p : Nat × List Char),
      p ∈ block.coverage_points.flatMap
        (insertionsFor (splitLines raw_code) block.start_line) →
      ∃ cp ∈ block.coverage_points, ∃ pre : List Char,
        p.2 = pre ++ make_put_statement cp.point_id) ∧
    (∀ (block : SASBlock) (raw_code : List Char),
      (∀ cp ∈ block.coverage_points, ∀ c ∈ cp.point_id.data, c ≠ '\n') →
      (splitLines (instrument_data_step block raw_code)).length =
        (splitLines raw_code).length +
          (block.coverage_points.flatMap
            (insertionsFor (splitLines raw_code) block.start_line)).length) := by
  refine ⟨?_, fun block raw => flatMap_insertions_le _ _ _, ?_, ?_⟩
  · intro block raw_code
    have h1 := applyInsertions_sublist
      (sortInsertionsDesc (block.coverage_points.flatMap
        (insertionsFor (splitLines raw_code) block.start_line))) (splitLines raw_code)
    have h2 := sublist_flatMap (fun l => splitLines l) _ _ h1
    have h3 : (splitLines raw_code).flatMap (fun l => splitLines l) = splitLines raw_code :=
      flatMap_split_id _ (fun x hx => splitLines_no_newline x (splitLines_clean raw_code x hx))
    show List.Sublist _ (splitLines (joinLines _))
    rw [splitLines_joinLines _ (instrument_final_ne_nil block raw_code)]
    refine List.Sublist.trans ?_ h2
    rw [h3]
  · intro block raw_code p hp
    rcases List.mem_flatMap.mp hp with ⟨cp, hcp, hpin⟩
    rcases insertionsFor_shape _ _ cp p hpin with ⟨pre, hpre, _⟩
    exact ⟨cp, hcp, pre, hpre⟩
  · intro block raw_code hid
    have hfinalclean : ∀ x ∈ applyInsertions (splitLines raw_code)
        (sortInsertionsDesc (block.coverage_points.flatMap
          (insertionsFor (splitLines raw_code) block.start_line))),
        splitLines x = [x] := by
      intro x hx
      rcases applyInsertions_mem_src _ _ x hx with hsrc | ⟨p, hp, rfl⟩
      · exact splitLines_no_newline x (splitLines_clean raw_code x hsrc)
      · have hp' := (mem_sortInsertionsDesc _ _).mp hp
        rcases List.mem_flatMap.mp hp' with ⟨cp, hcp, hpin⟩
        rcases insertionsFor_shape _ _ cp p hpin with ⟨pre, hpre, hpreclean⟩
        rw [hpre]
        apply splitLines_no_newline
        intro c hc
        rcases List.mem_append.mp hc with hc | hc
        · exact hpreclean c hc
        · exact make_put_clean cp.point_id (hid cp hcp) c hc
    show (splitLines (joinLines _)).length = _
    rw [splitLines_joinLines _ (instrument_final_ne_nil block raw_code),
      flatMap_split_id _ hfinalclean, applyInsertions_length, length_sortInsertionsDesc]

/-- C6 counterexample: on `c6cexCode` the block has three coverage points
but the instrumented text contains exactly one marker-emission line — the
claimed equality between emitted markers and decision points fails. -/
theorem instrument_marker_count_mismatch :
    (parse_data_step c6cexMatch c6cexCode.data 0 "inline").1.coverage_points.length = 3 ∧
    ((splitLines (instrument_data_step
        (parse_data_step c6cexMatch c6cexCode.data 0 "inline").1 c6cexCode.data)).countP
      (fun l => containsSeq "COV:POINT=".data l)) = 1 := by
  constructor
  · decide
  · decide

/-- Witness for C6: on `c6wCode` the original lines survive as a sublist
of the instrumented lines, and (ids being newline-free, discharged by
computation) the line count grows by exactly the number of computed
insertions. -/
theorem instrument_preserves_lines_and_markers_witness :
    List.Sublist (splitLines c6wCode.data)
      (splitLines (instrument_data_step c6wBlk c6wCode.data)) ∧
    (splitLines (instrument_data_step c6wBlk c6wCode.data)).length =
      (splitLines c6wCode.data).length +
        (c6wBlk.coverage_points.flatMap
          (insertionsFor (splitLines c6wCode.data) c6wBlk.start_line)).length :=
  ⟨instrument_preserves_lines_and_markers.1 c6wBlk c6wCode.data,
   instrument_preserves_lines_and_markers.2.2.2 c6wBlk c6wCode.data (by decide)⟩

/-- Witness for C4: on `c4wCode` both parts apply — the extracted `IF`
points pair up with condition `x > 1`, and the instrumented text contains
the synthesized `else put "COV:POINT=inline:3";` line. -/
theorem if_pairs_and_synthesized_else_witness :
    (((parse_data_step c4wMatch c4wCode.data 0 "inline").1.coverage_points.filter
        (fun cp => decide (cp.point_type = CoveragePointType.IF_TRUE))).map
      (fun cp => cp.condition)) =
      (findIfMatches c4wMatch.body).map (fun ifm => String.mk ifm.condition) ∧
    ("  else ".data ++ make_put_statement c4wCp.point_id) ∈
      splitLines (instrument_data_step c4wBlk c4wCode.data) :=
  ⟨(if_pairs_and_synthesized_else.1 c4wMatch c4wCode.data 0 "inline").1,
   if_pairs_and_synthesized_else.2 c4wBlk c4wCode.data c4wCp
     (splitLines c4wCode.data) 0 1 1 rfl (by decide) (by decide) rfl (by decide)
     (by decide) (by decide) (by decide) (by decide)⟩

theorem pointRows_length (rng : Rng) (cols : List String) (cp : CoveragePoint) :
    (pointRows rng cols cp).1.length = pointRowCount cols cp := by
  by_cases hc : cp.condition = ""
  · simp [pointRows, pointRowCount, hc]
  · cases hty : cp.point_type <;>
      simp only [pointRows, pointRowCount, hc, hty, if_neg, if_false] <;>
      first
        | rfl
        | (cases h : add_targeted_rows cp.condition cols true <;> simp [h])
        | (cases h : add_targeted_rows cp.condition cols false <;> simp [h])
        | simp [add_edge_case_rows]

theorem newRowsAux_length (cols : List String) :
    ∀ (rng : Rng) (missed : List CoveragePoint),
      (newRowsAux cols rng missed).1.length =
        (missed.map (pointRowCount cols)).sum := by
  intro rng missed
  induction missed generalizing rng with
  | nil => rfl
  | cons cp rest ih =>
    show ((pointRows rng cols cp).1 ++
      (newRowsAux cols (pointRows rng cols cp).2 rest).1).length = _
    rw [List.length_append, pointRows_length, ih, List.map_cons, List.sum_cons]

theorem mkDataFrame_length (rows : List (List (String × Value))) :
    (mkDataFrame rows).rows.length = rows.length := by
  simp [mkDataFrame]

theorem alignColumns_length (mdf : DataFrame) (tc : List String) :
    (alignColumns mdf tc).rows.length = mdf.rows.length := by
  simp [alignColumns]

theorem alignColumns_row_width (mdf : DataFrame) (tc : List String) :
    ∀ r ∈ (alignColumns mdf tc).rows, r.length = tc.length := by
  intro r hr
  simp only [alignColumns, List.map_map, List.mem_map] at hr
  rcases hr with ⟨s, _, rfl⟩
  simp

theorem mem_dedupFirstAux (x : String) :
    ∀ (l seen : List String), x ∈ dedupFirstAux seen l ↔ (x ∈ l ∧ x ∉ seen) := by
  intro l
  induction l with
  | nil => intro seen; simp [dedupFirstAux]
  | cons s rest ih =>
    intro seen
    by_cases hs : seen.contains s
    · have hsm : s ∈ seen := by simpa using hs
      rw [dedupFirstAux, if_pos hs, ih]
      constructor
      · rintro ⟨hr, hn⟩
        exact ⟨List.mem_cons_of_mem s hr, hn⟩
      · rintro ⟨hor, hn⟩
        rcases List.mem_cons.mp hor with h1 | h1
        · exact absurd (h1 ▸ hsm) hn
        · exact ⟨h1, hn⟩
    · have hsm : s ∉ seen := by simpa using hs
      rw [dedupFirstAux, if_neg hs]
      constructor
      · intro hx
        rcases List.mem_cons.mp hx with h1 | h1
        · exact ⟨h1 ▸ List.mem_cons_self s rest, h1 ▸ hsm⟩
        · rcases (ih (s :: seen)).mp h1 with ⟨hr, hn⟩
          exact ⟨List.mem_cons_of_mem s hr,
            fun hseen => hn (List.mem_cons_of_mem s hseen)⟩
      · rintro ⟨hor, hn⟩
        by_cases hxs : x = s
        · exact hxs ▸ List.mem_cons_self s _
        · rcases List.mem_cons.mp hor with h1 | h1
          · exact absurd h1 hxs
          · exact List.mem_cons_of_mem s ((ih (s :: seen)).mpr
              ⟨h1, fun hx => (List.mem_cons.mp hx).elim hxs hn⟩)

theorem mem_dedupFirst (x : String) (l : List String) :
    x ∈ dedupFirst l ↔ x ∈ l := by
  rw [dedupFirst, mem_dedupFirstAux]
  simp

theorem rowLookup_eq_none (d : List (String × Value)) (c : String)
    (h : ∀ p ∈ d, p.1 ≠ c) : rowLookup d c = none := by
  have hn : d.find? (fun p => p.1 == c) = none :=
    List.find?_eq_none.mpr (fun p hp => by simpa using h p hp)
  rw [rowLookup, hn]
  rfl

theorem dfCell_cons (x : String) (v : Value) (xs : List String) (vs : List Value)
    (c : String) :
    dfCell (x :: xs) (v :: vs) c = if x = c then v else dfCell xs vs c := by
  by_cases h : x = c
  · rw [if_pos h]
    simp [dfCell, List.find?_cons_of_pos, h]
  · rw [if_neg h]
    simp only [dfCell, List.zip_cons_cons]
    rw [List.find?_cons_of_neg]
    simpa using h

theorem dfCell_map (f : String → Value) (c : String) :
    ∀ cols : List String, c ∈ cols → dfCell cols (cols.map f) c = f c := by
  intro cols
  induction cols with
  | nil => intro h; simp at h
  | cons x xs ih =>
    intro h
    rw [List.map_cons, dfCell_cons]
    by_cases hx : x = c
    · rw [if_pos hx, hx]
    · have hc : c ∈ xs := by
        rcases List.mem_cons.mp h with h1 | h1
        · exact absurd h1.symm hx
        · exact h1
      rw [if_neg hx]
      exact ih hc

theorem dfCell_append_left (f g : String → Value) (c : String) (b : List String) :
    ∀ a : List String, c ∈ a →
      dfCell (a ++ b) (a.map f ++ b.map g) c = f c := by
  intro a
  induction a with
  | nil => intro h; simp at h
  | cons x xs ih =>
    intro h
    rw [List.cons_append, List.map_cons, List.cons_append, dfCell_cons]
    by_cases hx : x = c
    · rw [if_pos hx, hx]
    · have hc : c ∈ xs := by
        rcases List.mem_cons.mp h with h1 | h1
        · exact absurd h1.symm hx
        · exact h1
      rw [if_neg hx]
      exact ih hc

theorem dfCell_append_right (f g : String → Value) (c : String) (b : List String)
    (hb : c ∈ b) : ∀ a : List String, c ∉ a →
      dfCell (a ++ b) (a.map f ++ b.map g) c = g c := by
  intro a
  induction a with
  | nil =>
    intro _
    simpa using dfCell_map g c b hb
  | cons x xs ih =>
    intro h
    rw [List.cons_append, List.map_cons, List.cons_append, dfCell_cons]
    rw [if_neg (fun hx => h (List.mem_cons.mpr (Or.inl hx.symm)))]
    exact ih (fun hc => h (List.mem_cons_of_mem x hc))

/-- The appended block is the row dictionaries mapped through the target
columns: every cell holds the dictionary's value for its column, and the
missing value at every column the dictionary does not assign. -/
theorem alignColumns_mkDataFrame_rows (rows : List (List (String × Value)))
    (tc : List String) :
    (alignColumns (mkDataFrame rows) tc).rows =
      rows.map (fun d => tc.map (fun c => (rowLookup d c).getD Value.missing)) := by
  simp only [alignColumns, mkDataFrame, List.map_map]
  refine List.map_congr_left (fun d hd => ?_)
  refine List.map_congr_left (fun c hc => ?_)
  simp only [Function.comp]
  by_cases hm : c ∈ dedupFirst (rows.flatMap (fun r => r.map Prod.fst))
  · exact dfCell_append_left _ _ c _ _ hm
  · have hnone : rowLookup d c = none := by
      refine rowLookup_eq_none d c (fun p hp hpc => ?_)
      exact hm ((mem_dedupFirst c _).mpr
        (List.mem_flatMap.mpr ⟨d, hd, hpc ▸ List.mem_map_of_mem Prod.fst hp⟩))
    have hextra : c ∈ (tc.filter (fun c =>
        ¬ (dedupFirst (rows.flatMap (fun r => r.map Prod.fst))).contains c)) := by
      refine List.mem_filter.mpr ⟨hc, ?_⟩
      simpa using hm
    rw [dfCell_append_right _ _ c _ hextra _ hm, hnone]
    rfl

theorem mutateOne_spec (missed : List CoveragePoint) (rng : Rng) (ds : GeneratedDataset) :
    (mutateOne missed rng ds).1.name = ds.name ∧
    (mutateOne missed rng ds).1.df.cols = ds.df.cols ∧
    (∃ extra, (mutateOne missed rng ds).1.df.rows = ds.df.rows ++ extra ∧
      (∀ r ∈ extra, r.length = ds.df.cols.length) ∧
      ∃ dicts : List (List (String × Value)), extra = dicts.map (fun d =>
        ds.df.cols.map (fun c => (rowLookup d c).getD Value.missing))) ∧
    (mutateOne missed rng ds).1.df.rows.length =
      ds.df.rows.length + (missed.map (pointRowCount ds.df.cols)).sum ∧
    ((missed.map (pointRowCount ds.df.cols)).sum = 0 → (mutateOne missed rng ds).1 = ds) := by
  have hlen := newRowsAux_length ds.df.cols rng missed
  cases h : (newRowsAux ds.df.cols rng missed).1.isEmpty
  · have hres : (mutateOne missed rng ds).1 =
        { name := ds.name
          df := { cols := ds.df.cols
                  rows := ds.df.rows ++
                    (alignColumns (mkDataFrame (newRowsAux ds.df.cols rng missed).1)
                      ds.df.cols).rows }
          generation_notes := ds.generation_notes ++
            ["Mutated: added " ++
              Nat.repr (newRowsAux ds.df.cols rng missed).1.length ++ " targeted rows"] } := by
      simp [mutateOne, h]
    have hne : (newRowsAux ds.df.cols rng missed).1.length ≠ 0 := by
      intro h0
      rw [List.length_eq_zero.mp h0] at h
      simp at h
    refine ⟨by rw [hres], by rw [hres], ?_, ?_, ?_⟩
    · exact ⟨_, by rw [hres], alignColumns_row_width _ _,
        (newRowsAux ds.df.cols rng missed).1, alignColumns_mkDataFrame_rows _ _⟩
    · rw [hres]
      show (ds.df.rows ++ _).length = _
      rw [List.length_append, alignColumns_length, mkDataFrame_length, hlen]
    · intro h0
      rw [h0] at hlen
      exact absurd hlen hne
  · have hres : (mutateOne missed rng ds).1 = ds := by
      simp [mutateOne, h]
    have hsum : (missed.map (pointRowCount ds.df.cols)).sum = 0 := by
      rw [← hlen, List.length_eq_zero, ← List.isEmpty_iff]
      exact h
    refine ⟨by rw [hres], by rw [hres],
      ⟨[], by rw [hres, List.append_nil], by simp, [], by simp⟩, ?_, fun _ => hres⟩
    rw [hres, hsum]
    omega

theorem mutateAux_spec (missed : List CoveragePoint) :
    ∀ (rng : Rng) (datasets : List GeneratedDataset),
      List.Forall₂ (fun ds' ds =>
        ds'.name = ds.name ∧ ds'.df.cols = ds.df.cols ∧
        (∃ extra, ds'.df.rows = ds.df.rows ++ extra ∧
          (∀ r ∈ extra, r.length = ds.df.cols.length) ∧
          ∃ dicts : List (List (String × Value)), extra = dicts.map (fun d =>
            ds.df.cols.map (fun c => (rowLookup d c).getD Value.missing))) ∧
        ds'.df.rows.length = ds.df.rows.length +
          (missed.map (pointRowCount ds.df.cols)).sum ∧
        ((missed.map (pointRowCount ds.df.cols)).sum = 0 → ds' = ds))
        (mutateAux missed rng datasets).1 datasets := by
  intro rng datasets
  induction datasets generalizing rng with
  | nil => exact List.Forall₂.nil
  | cons ds rest ih =>
    exact List.Forall₂.cons (mutateOne_spec missed rng ds) (ih _)

/-- C7: `mutate_datasets` returns its input unchanged when the coverage
report has no missed points; otherwise it maps each dataset to one with
the same name and the same columns, whose rows are the original rows with
the synthesized rows appended after them — each appended row is the
column list mapped through a synthesized row dictionary, so it is exactly
as wide as the column list and holds the missing value at every column
the dictionary does not assign — growing the row count by exactly the
total number of rows the missed points contribute for those columns
(strictly positive exactly when some missed point's condition is
extractable against the dataset's columns) and leaving a dataset
unchanged when that total is zero. -/
theorem mutate_datasets_spec (datasets : List GeneratedDataset)
    (cr : CoverageReport) (pr : ParseResult) (seed mr : Nat) :
    (cr.missed_points = [] →
      mutate_datasets datasets cr pr seed mr = datasets) ∧
    List.Forall₂ (fun ds' ds =>
      ds'.name = ds.name ∧ ds'.df.cols = ds.df.cols ∧
      (∃ extra, ds'.df.rows = ds.df.rows ++ extra ∧
        (∀ r ∈ extra, r.length = ds.df.cols.length) ∧
        ∃ dicts : List (List (String × Value)), extra = dicts.map (fun d =>
          ds.df.cols.map (fun c => (rowLookup d c).getD Value.missing))) ∧
      ds'.df.rows.length = ds.df.rows.length +
        (cr.missed_points.map (pointRowCount ds.df.cols)).sum ∧
      ((cr.missed_points.map (pointRowCount ds.df.cols)).sum = 0 → ds' = ds))
      (mutate_datasets datasets cr pr seed mr) datasets := by
  constructor
  · intro h
    simp [mutate_datasets, h]
  · cases h : cr.missed_points.isEmpty
    · have hne : ¬ cr.missed_points.isEmpty = true := by rw [h]; exact Bool.false_ne_true
      have hres : mutate_datasets datasets cr pr seed mr =
          (mutateAux cr.missed_points (default_rng seed) datasets).1 := by
        simp [mutate_datasets, h]
      rw [hres]
      exact mutateAux_spec cr.missed_points (default_rng seed) datasets
    · have hmiss : cr.missed_points = [] := List.isEmpty_iff.mp h
      have hres : mutate_datasets datasets cr pr seed mr = datasets := by
        simp [mutate_datasets, h]
      rw [hres]
      refine List.forall₂_same.mpr (fun ds _ => ?_)
      exact ⟨rfl, rfl, ⟨[], (List.append_nil _).symm, by simp, [], by simp⟩,
        by rw [hmiss]; simp, fun _ => rfl⟩

/-- Witness for C7: with no missed points the dataset list comes back
unchanged. -/
theorem mutate_datasets_spec_witness :
    c7emptyCr.missed_points = [] ∧
    mutate_datasets [c7wDs] c7emptyCr c7wPr 42 10 = [c7wDs] := by
  have h : c7emptyCr.missed_points = [] := by
    simp [CoverageReport.missed_points, c7emptyCr]
  exact ⟨h, (mutate_datasets_spec [c7wDs] c7emptyCr c7wPr 42 10).1 h⟩

/-- C9 (amended): seed generation reads nothing beyond its arguments —
for a fixed string-set iteration order, the result is a pure function of
`(parse_result, num_rows, seed)`, identical whatever the ambient process
state. -/
theorem generate_seed_datasets_deterministic
    (setOrder : List String → List String) (ps₁ ps₂ : ProcessState)
    (pr : ParseResult) (num_rows seed : Nat) :
    generate_seed_datasets setOrder ps₁ pr num_rows seed =
      generate_seed_datasets setOrder ps₂ pr num_rows seed := rfl

/-- C9 counterexample: with the same parse result, row count and seed,
two string-set iteration orders (identity and reversal) yield different
datasets — `list(set(values))` in `_extract_string_values` makes the
output depend on the interpreter's string-hash state, not only on
`(parse_result, num_rows, seed)`. -/
theorem seed_generation_depends_on_set_order :
    generate_seed_datasets (fun l => l) {} c9cexPr 1 42 ≠
      generate_seed_datasets List.reverse {} c9cexPr 1 42 := by decide

end SasGen
